import Mathlib

/-
Verification of the orbits gravitational simulator (src/orbits/sim.py).

The numeric state of the simulation is embedded over the real numbers:
numpy float arrays become functions Fin 3 → ℝ, the trajectory record array
becomes a list of records, and the in-place mutation performed by
SimRun.run becomes explicit state passing over the list of bodies.
astropy units are embedded as dimension exponents together with a scale
factor, and astropy Quantity.to as a fallible conversion returning Except.
-/

namespace Orbits

open Classical

noncomputable section

/-- A 3-component real vector, modelling a length-3 numpy float array. -/
abbrev Vec3 := Fin 3 → ℝ

/-- Dimension exponents (length, mass, time) of a physical unit. -/
structure Dim where
  len : ℤ
  mass : ℤ
  time : ℤ
deriving DecidableEq

/-- A physical unit: dimension exponents plus a scale factor to SI. -/
structure PhUnit where
  dim : Dim
  scale : ℝ

/-- Product of two units. -/
def PhUnit.mul (a b : PhUnit) : PhUnit :=
  ⟨⟨a.dim.len + b.dim.len, a.dim.mass + b.dim.mass, a.dim.time + b.dim.time⟩,
   a.scale * b.scale⟩

/-- Quotient of two units. -/
def PhUnit.div (a b : PhUnit) : PhUnit :=
  ⟨⟨a.dim.len - b.dim.len, a.dim.mass - b.dim.mass, a.dim.time - b.dim.time⟩,
   a.scale / b.scale⟩

/-- Natural power of a unit. -/
def PhUnit.pow (a : PhUnit) (n : ℕ) : PhUnit :=
  ⟨⟨a.dim.len * n, a.dim.mass * n, a.dim.time * n⟩, a.scale ^ n⟩

def meter : PhUnit := ⟨⟨1, 0, 0⟩, 1⟩

def second : PhUnit := ⟨⟨0, 0, 1⟩, 1⟩

def kilogram : PhUnit := ⟨⟨0, 1, 0⟩, 1⟩

/-- meters per second, for supplying velocities at the boundary. -/
def mps : PhUnit := meter.div second

/-- A physical quantity: a magnitude tagged with a unit (astropy Quantity). -/
structure Quantity where
  value : ℝ
  unit : PhUnit

/-- astropy Quantity.to: unit conversion, succeeding exactly when the
dimensions agree, rescaling the magnitude. -/
def Quantity.to (q : Quantity) (u : PhUnit) : Except String Quantity :=
  if q.unit.dim = u.dim then Except.ok ⟨q.value * q.unit.scale / u.scale, u⟩
  else Except.error "UnitConversionError"

/-- astropy constants.G in SI units, m^3 / (kg s^2). -/
def G_SI : Quantity := ⟨6.6743e-11, ⟨⟨3, -1, -2⟩, 1⟩⟩

/-- One record of a trajectory array (the numpy dtype (p, v, t)). -/
structure PVT where
  p : Vec3
  v : Vec3
  t : ℝ

/-- The zero-initialized record produced by np.zeros. -/
def zeroPVT : PVT := ⟨fun _ => 0, fun _ => 0, 0⟩

/-- One entry of SimRun.objects: the dict built by add_object, with mass
and radius already converted to simulation units. -/
structure Body where
  name : String
  mass : ℝ
  radius : ℝ
  pvt : List PVT

/-- Junk body used as the default of out-of-range list reads. -/
def dBody : Body := ⟨"", 0, 0, []⟩

/-- The state of SimRun: dt is the converted magnitude in time_unit,
G the gravitational constant converted to simulation units. -/
structure SimRun where
  dt : ℝ
  n_steps : ℤ
  maxtime : Quantity
  objects : List Body
  len_unit : PhUnit
  time_unit : PhUnit
  mass_unit : PhUnit
  G : ℝ

/-- The unit len^3/(mass * time^2) that SimRun.__init__ converts G to. -/
def simGUnit (lu mu tu : PhUnit) : PhUnit := (lu.pow 3).div (mu.mul (tu.pow 2))

/-- SimRun.__init__.  dt and maxtime are converted to time_unit (raising on
incompatible units); n_steps = ceil(maxtime/dt) + 1; math.ceil raises when
the float ratio is infinite or nan, i.e. when dt converts to zero; the
stored maxtime is dt*(n_steps-1) in the unit of the dt argument; G is
converted once to simulation units. -/
def mkSimRun (dt maxtime : Quantity) (len_unit time_unit mass_unit : PhUnit) :
    Except String SimRun :=
  match dt.to time_unit with
  | Except.error e => Except.error e
  | Except.ok dtc =>
    match maxtime.to time_unit with
    | Except.error e => Except.error e
    | Except.ok mtc =>
      if dtc.value = 0 then Except.error "OverflowError" else
      match G_SI.to (simGUnit len_unit mass_unit time_unit) with
      | Except.error e => Except.error e
      | Except.ok gq =>
        let n : ℤ := ⌈mtc.value / dtc.value⌉ + 1
        Except.ok
          { dt := dtc.value,
            n_steps := n,
            maxtime := ⟨dt.value * ((n - 1 : ℤ) : ℝ), dt.unit⟩,
            objects := [],
            len_unit := len_unit,
            time_unit := time_unit,
            mass_unit := mass_unit,
            G := gq.value }

/-- SimRun.add_object.  np.zeros(n_steps) raises for a negative count;
writing entry 0 raises when the array is empty; each supplied quantity is
converted to simulation units (raising on incompatible units); the new body
is appended with a trajectory of n_steps records, entry 0 holding the
initial state at t = 0 and the rest zero-filled. -/
def SimRun.add_object (s : SimRun) (nm : String)
    (x0 y0 z0 vx0 vy0 vz0 m r : Quantity) : Except String SimRun :=
  if s.n_steps < 0 then Except.error "ValueError" else do
  let xc ← x0.to s.len_unit
  if s.n_steps = 0 then Except.error "IndexError" else do
  let yc ← y0.to s.len_unit
  let zc ← z0.to s.len_unit
  let vxc ← vx0.to (s.len_unit.div s.time_unit)
  let vyc ← vy0.to (s.len_unit.div s.time_unit)
  let vzc ← vz0.to (s.len_unit.div s.time_unit)
  let mc ← m.to s.mass_unit
  let rc ← r.to s.len_unit
  Except.ok { s with objects := s.objects ++
    [⟨nm, mc.value, rc.value,
      ⟨![xc.value, yc.value, zc.value], ![vxc.value, vyc.value, vzc.value], 0⟩ ::
        List.replicate (s.n_steps.toNat - 1) zeroPVT⟩] }

/-- Step 1 of SimRun.run, totalized: the fold skips every src whose whole
record equals obj's.  The faithful obj == src comparison, including the
ValueError it raises when two distinct dicts agree on name, mass and
radius and the multi-record trajectory arrays are compared, is dictEq and
accelE below; on states whose registered names are pairwise distinct the
comparison short-circuits and the two embeddings agree (accelE_eq_accel,
runE_eq_run). -/
def accel (G : ℝ) (i : ℕ) (objs : List Body) (obj : Body) : Vec3 :=
  objs.foldl
    (fun a src =>
      if obj = src then a
      else
        let r : Vec3 := fun c =>
          (obj.pvt.getD (i - 1) zeroPVT).p c - (src.pvt.getD (i - 1) zeroPVT).p c
        let r_mag : ℝ := Real.sqrt (∑ c, r c ^ 2)
        fun c => a c + -(G * src.mass) * r c / r_mag ^ 3)
    (fun _ => 0)

/-- Steps 2-4 of SimRun.run for one body: write entry i of the trajectory
from entry i-1 and the accumulated acceleration, stamping t = dt*i. -/
def stepBody (G dt : ℝ) (i : ℕ) (objs : List Body) (obj : Body) : Body :=
  let a := accel G i objs obj
  { obj with pvt := (obj.pvt.set i
      ⟨fun c => (obj.pvt.getD (i - 1) zeroPVT).p c
          + (obj.pvt.getD (i - 1) zeroPVT).v c * dt + (a c / 2) * dt ^ 2,
       fun c => (obj.pvt.getD (i - 1) zeroPVT).v c + a c * dt,
       dt * i⟩) }

/-- The body loop of SimRun.run at step i: the Python list self.objects is
done ++ todo, and each body is replaced in place before the next one is
visited, so the acceleration fold of a later body sees the already updated
records of earlier bodies. -/
def stepAllGo (G dt : ℝ) (i : ℕ) (done todo : List Body) : List Body :=
  match todo with
  | [] => done
  | b :: rest => stepAllGo G dt i (done ++ [stepBody G dt i (done ++ b :: rest) b]) rest

/-- One full iteration of the outer time loop of SimRun.run. -/
def stepAll (G dt : ℝ) (i : ℕ) (objs : List Body) : List Body :=
  stepAllGo G dt i [] objs

/-- The outer time loop of SimRun.run truncated after step m. -/
def runSteps (G dt : ℝ) (objs : List Body) : ℕ → List Body
  | 0 => objs
  | m + 1 => stepAll G dt (m + 1) (runSteps G dt objs m)

/-- SimRun.run: for i in range(1, n_steps), update every body at step i. -/
def SimRun.run (s : SimRun) : SimRun :=
  { s with objects :=
      ((List.range' 1 (s.n_steps - 1).toNat).foldl
        (fun objs i => stepAll s.G s.dt i objs) s.objects) }

/-- Python obj == src on two of the body dicts.  ident says whether obj
and src are the same dict object (the same position of self.objects, where
every registration appends a fresh dict); then every per-value comparison
identity-shortcuts to True.  Distinct dicts compare name, mass and radius
in insertion order, short-circuiting to False at the first difference;
when those agree, the elementwise numpy comparison of the two trajectory
record arrays is truth-tested, which yields the record comparison for
one-entry arrays and raises ValueError for any other length. -/
def dictEq (ident : Bool) (obj src : Body) : Except String Bool :=
  if ident then Except.ok true
  else if ¬ obj.name = src.name then Except.ok false
  else if ¬ obj.mass = src.mass then Except.ok false
  else if ¬ obj.radius = src.radius then Except.ok false
  else if obj.pvt.length = 1 ∧ src.pvt.length = 1 then
    Except.ok (decide (obj.pvt = src.pvt))
  else Except.error "ValueError"

/-- Step 1 of SimRun.run with the faithful comparison: the fold over
self.objects for the body obj sitting at position k, where src at
position j is the same object as obj exactly when j = k; a ValueError
raised by the comparison aborts the run. -/
def accelGo (G : ℝ) (i k : ℕ) (obj : Body) : ℕ → List Body → Vec3 → Except String Vec3
  | _, [], a => Except.ok a
  | j, src :: rest, a =>
    match dictEq (decide (j = k)) obj src with
    | Except.error e => Except.error e
    | Except.ok true => accelGo G i k obj (j + 1) rest a
    | Except.ok false =>
      let r : Vec3 := fun c =>
        (obj.pvt.getD (i - 1) zeroPVT).p c - (src.pvt.getD (i - 1) zeroPVT).p c
      let r_mag : ℝ := Real.sqrt (∑ c, r c ^ 2)
      accelGo G i k obj (j + 1) rest (fun c => a c + -(G * src.mass) * r c / r_mag ^ 3)

/-- The acceleration accumulation for the body at position k, fallible. -/
def accelE (G : ℝ) (i : ℕ) (objs : List Body) (k : ℕ) (obj : Body) : Except String Vec3 :=
  accelGo G i k obj 0 objs (fun _ => 0)

/-- The source bodies the faithful acceleration loop actually uses:
entries skipped by obj == src are dropped, and the ValueError of the
comparison propagates. -/
def accelSrcsE (obj : Body) (k : ℕ) : ℕ → List Body → Except String (List Body)
  | _, [] => Except.ok []
  | j, src :: rest =>
    match dictEq (decide (j = k)) obj src with
    | Except.error e => Except.error e
    | Except.ok true => accelSrcsE obj k (j + 1) rest
    | Except.ok false =>
      match accelSrcsE obj k (j + 1) rest with
      | Except.error e => Except.error e
      | Except.ok l => Except.ok (src :: l)

/-- Steps 2-4 of SimRun.run for the body at position k, fallible. -/
def stepBodyE (G dt : ℝ) (i : ℕ) (objs : List Body) (k : ℕ) (obj : Body) :
    Except String Body :=
  match accelE G i objs k obj with
  | Except.error e => Except.error e
  | Except.ok a => Except.ok { obj with pvt := (obj.pvt.set i
      ⟨fun c => (obj.pvt.getD (i - 1) zeroPVT).p c
          + (obj.pvt.getD (i - 1) zeroPVT).v c * dt + (a c / 2) * dt ^ 2,
       fun c => (obj.pvt.getD (i - 1) zeroPVT).v c + a c * dt,
       dt * i⟩) }

/-- The body loop of SimRun.run with the faithful comparison: the current
list is done ++ todo and the body being updated sits at position
done.length. -/
def stepAllGoE (G dt : ℝ) (i : ℕ) (done todo : List Body) : Except String (List Body) :=
  match todo with
  | [] => Except.ok done
  | b :: rest =>
    match stepBodyE G dt i (done ++ b :: rest) done.length b with
    | Except.error e => Except.error e
    | Except.ok b2 => stepAllGoE G dt i (done ++ [b2]) rest

/-- One iteration of the outer time loop, fallible. -/
def stepAllE (G dt : ℝ) (i : ℕ) (objs : List Body) : Except String (List Body) :=
  stepAllGoE G dt i [] objs

/-- SimRun.run with the faithful comparison: for i in range(1, n_steps)
update every body, propagating the ValueError a comparison may raise. -/
def SimRun.runE (s : SimRun) : Except String SimRun :=
  match (List.range' 1 (s.n_steps - 1).toNat).foldl
      (fun st i =>
        match st with
        | Except.error e => Except.error e
        | Except.ok objs => stepAllE s.G s.dt i objs)
      (Except.ok s.objects) with
  | Except.error e => Except.error e
  | Except.ok l => Except.ok { s with objects := l }

/-- Trajectory entry i of the body registered at position k. -/
def trajRec (s : SimRun) (k i : ℕ) : PVT := (s.objects.getD k dBody).pvt.getD i zeroPVT

/-- The acceleration contribution of a single source: -G m r / |r|^3. -/
def pairAccel (G mS : ℝ) (pB pS : Vec3) : Vec3 :=
  fun c => -(G * mS) * (pB c - pS c) / Real.sqrt (∑ d, (pB d - pS d) ^ 2) ^ 3

/-- The specification's acceleration on the body at position k from
entry j of the trajectories: the sum of pairAccel over every other
position. -/
def gravAccel (objs : List Body) (G : ℝ) (k j : ℕ) : Vec3 :=
  ∑ l ∈ (Finset.range objs.length).erase k,
    pairAccel G (objs.getD l dBody).mass
      ((objs.getD k dBody).pvt.getD j zeroPVT).p
      ((objs.getD l dBody).pvt.getD j zeroPVT).p

/-- The contribution of one source to the accel fold: zero when skipped. -/
def srcTerm (G : ℝ) (i : ℕ) (obj src : Body) : Vec3 :=
  if obj = src then 0
  else pairAccel G src.mass (obj.pvt.getD (i - 1) zeroPVT).p (src.pvt.getD (i - 1) zeroPVT).p

/-- The record written by stepBody at entry i. -/
def newRec (dt : ℝ) (i : ℕ) (prev : PVT) (a : Vec3) : PVT :=
  ⟨fun c => prev.p c + prev.v c * dt + (a c / 2) * dt ^ 2,
   fun c => prev.v c + a c * dt,
   dt * i⟩

/-- Relation between two source bodies the acceleration fold cannot
distinguish: same mass and same record at entry i-1.  The skip decision may
differ for a body whose whole record equals the accelerated body's, but
such a source has zero separation and its term vanishes in the embedding. -/
def AccelView (i : ℕ) (s1 s2 : Body) : Prop :=
  s1.mass = s2.mass ∧ s1.pvt.getD (i - 1) zeroPVT = s2.pvt.getD (i - 1) zeroPVT

/-- What the time loop leaves untouched after steps 1..m: every body field
except trajectory entries 1..m. -/
def Preserved (m : ℕ) (b b2 : Body) : Prop :=
  b2.name = b.name ∧ b2.mass = b.mass ∧ b2.radius = b.radius ∧
  b2.pvt.length = b.pvt.length ∧
  ∀ j, (j = 0 ∨ m < j) → b2.pvt.getD j zeroPVT = b.pvt.getD j zeroPVT

/-- The shape of a body after the step-i update: entry i overwritten with
time stamp dt*i, everything else untouched. -/
def SetShape (dt : ℝ) (i : ℕ) (b b2 : Body) : Prop :=
  ∃ P V, b2 = ⟨b.name, b.mass, b.radius, b.pvt.set i ⟨P, V, dt * i⟩⟩

/- Concrete fixtures used to evaluate the theorems on closed inputs. -/

def bW1 : Body := ⟨"a", 1, 1, [⟨![0, 0, 0], ![0, 0, 0], 0⟩, zeroPVT]⟩

def bW2 : Body := ⟨"b", 1, 1, [⟨![1, 0, 0], ![0, 0, 0], 0⟩, zeroPVT]⟩

/-- A two-body simulation state with dt = 1, n_steps = 2, G = 1. -/
def sW : SimRun := ⟨1, 2, ⟨2, second⟩, [bW1, bW2], meter, second, kilogram, 1⟩

/-- A single body with three trajectory entries. -/
def bW3 : Body := ⟨"c", 1, 1, [⟨![0, 0, 0], ![1, 0, 0], 0⟩, zeroPVT, zeroPVT]⟩

/-- A single-body simulation state with dt = 1, n_steps = 3. -/
def sW1 : SimRun := ⟨1, 3, ⟨3, second⟩, [bW3], meter, second, kilogram, 1⟩

/-- A state whose step count is negative (as after construction with
dt = -1 s, maxtime = 2 s). -/
def sNeg : SimRun := ⟨-1, -2, ⟨2, second⟩, [], meter, second, kilogram, 1⟩

/-- A body registered twice: its record compares equal to itself. -/
def bDup : Body := ⟨"x", 1, 1, [⟨![0, 0, 0], ![0, 0, 0], 0⟩, zeroPVT]⟩

/-- A second body sharing bDup's name, mass and radius but registered at a
different initial position. -/
def bCol2 : Body := ⟨"x", 1, 1, [⟨![1, 0, 0], ![0, 0, 0], 0⟩, zeroPVT]⟩

/-- A two-body state whose distinct bodies collide on name, mass and
radius. -/
def sDup : SimRun := ⟨1, 2, ⟨2, second⟩, [bDup, bCol2], meter, second, kilogram, 1⟩

def dtcW : Quantity := ⟨2 * 1 / 1, second⟩

def mtcW : Quantity := ⟨5 * 1 / 1, second⟩

/-- The result of converting G_SI to the default simulation units. -/
def gqW : Quantity :=
  ⟨G_SI.value * G_SI.unit.scale / (simGUnit meter kilogram second).scale,
   simGUnit meter kilogram second⟩

/-- The simulation state built by mkSimRun from dt = 2 s, maxtime = 5 s. -/
def sC2 : SimRun :=
  ⟨dtcW.value, ⌈mtcW.value / dtcW.value⌉ + 1,
   ⟨(2 : ℝ) * ((⌈mtcW.value / dtcW.value⌉ + 1 - 1 : ℤ) : ℝ), second⟩,
   [], meter, second, kilogram, gqW.value⟩

/-- The state produced by registering one body on sW. -/
def s2W : SimRun := { sW with objects := sW.objects ++
  [⟨"w", 1 * 1 / 1, 1 * 1 / 1,
    ⟨![0 * 1 / 1, 0 * 1 / 1, 0 * 1 / 1],
     ![0 * (1 / 1) / (1 / 1), 0 * (1 / 1) / (1 / 1), 0 * (1 / 1) / (1 / 1)], 0⟩ ::
      List.replicate ((2 : ℤ).toNat - 1) zeroPVT⟩] }

end

/- ### Basic lemmas about the embedded operations -/

theorem stepBody_eq (G dt : ℝ) (i : ℕ) (objs : List Body) (obj : Body) :
    stepBody G dt i objs obj =
      { obj with pvt := (obj.pvt.set i
          (newRec dt i (obj.pvt.getD (i - 1) zeroPVT) (accel G i objs obj))) } := rfl

theorem stepBody_name (G dt : ℝ) (i : ℕ) (objs : List Body) (obj : Body) :
    (stepBody G dt i objs obj).name = obj.name := rfl

theorem stepBody_mass (G dt : ℝ) (i : ℕ) (objs : List Body) (obj : Body) :
    (stepBody G dt i objs obj).mass = obj.mass := rfl

theorem stepBody_radius (G dt : ℝ) (i : ℕ) (objs : List Body) (obj : Body) :
    (stepBody G dt i objs obj).radius = obj.radius := rfl

theorem stepBody_pvt_length (G dt : ℝ) (i : ℕ) (objs : List Body) (obj : Body) :
    (stepBody G dt i objs obj).pvt.length = obj.pvt.length := by
  simp [stepBody]

theorem stepBody_getD_ne (G dt : ℝ) (i : ℕ) (objs : List Body) (obj : Body)
    (j : ℕ) (h : j ≠ i) (d : PVT) :
    (stepBody G dt i objs obj).pvt.getD j d = obj.pvt.getD j d := by
  simp [stepBody, List.getD, List.getElem?_set_ne (Ne.symm h)]

theorem stepBody_getD_self (G dt : ℝ) (i : ℕ) (objs : List Body) (obj : Body)
    (h : i < obj.pvt.length) :
    (stepBody G dt i objs obj).pvt.getD i zeroPVT =
      newRec dt i (obj.pvt.getD (i - 1) zeroPVT) (accel G i objs obj) := by
  simp [stepBody, newRec, List.getD, List.getElem?_set_self, h]

theorem foldl_vec_add (g : Body → Vec3) :
    ∀ (l : List Body) (a0 : Vec3),
      l.foldl (fun a s => a + g s) a0 = a0 + (l.map g).sum := by
  intro l
  induction l with
  | nil => intro a0; simp
  | cons b rest ih =>
      intro a0
      simp only [List.foldl_cons, List.map_cons, List.sum_cons, ih, add_assoc]

theorem accel_eq_foldl_srcTerm (G : ℝ) (i : ℕ) (objs : List Body) (obj : Body) :
    accel G i objs obj = objs.foldl (fun a src => a + srcTerm G i obj src) (fun _ => 0) := by
  unfold accel
  congr 1
  funext a src
  by_cases h : obj = src
  · simp [h, srcTerm]
  · simp only [if_neg h, srcTerm]
    funext c
    simp [pairAccel, Pi.add_apply]

theorem accel_eq_list_sum (G : ℝ) (i : ℕ) (objs : List Body) (obj : Body) :
    accel G i objs obj = (objs.map (srcTerm G i obj)).sum := by
  rw [accel_eq_foldl_srcTerm, foldl_vec_add]
  funext c
  simp

theorem list_map_sum_eq_range (g : Body → Vec3) :
    ∀ l : List Body, (l.map g).sum = ∑ j ∈ Finset.range l.length, g (l.getD j dBody) := by
  intro l
  induction l with
  | nil => simp
  | cons b rest ih =>
      simp only [List.map_cons, List.sum_cons, List.length_cons, ih]
      rw [Finset.sum_range_succ' (fun j => g ((b :: rest).getD j dBody)) rest.length]
      simp only [List.getD_cons_succ, List.getD_cons_zero]
      exact (add_comm _ _)

theorem accel_eq_range_sum (G : ℝ) (i : ℕ) (objs : List Body) (obj : Body) :
    accel G i objs obj =
      ∑ j ∈ Finset.range objs.length, srcTerm G i obj (objs.getD j dBody) := by
  rw [accel_eq_list_sum, list_map_sum_eq_range]

/- ### The code's fold equals the specification's indexed sum -/

theorem pairAccel_self (G mS : ℝ) (p : Vec3) : pairAccel G mS p p = 0 := by
  funext c
  simp [pairAccel]

theorem accel_eq_gravAccel (G : ℝ) (i : ℕ) (objs : List Body) (obj : Body) (k : ℕ)
    (hk : k < objs.length) (hobj : objs.getD k dBody = obj) :
    accel G i objs obj = gravAccel objs G k (i - 1) := by
  rw [accel_eq_range_sum]
  unfold gravAccel
  rw [← Finset.sum_erase_add (Finset.range objs.length) _ (Finset.mem_range.mpr hk)]
  have h1 : srcTerm G i obj (objs.getD k dBody) = 0 := by rw [hobj, srcTerm, if_pos rfl]
  rw [h1, add_zero]
  apply Finset.sum_congr rfl
  intro j hj
  by_cases hne : obj = objs.getD j dBody
  · rw [srcTerm, if_pos hne]
    have hpr : ((objs.getD k dBody).pvt.getD (i - 1) zeroPVT).p
        = ((objs.getD j dBody).pvt.getD (i - 1) zeroPVT).p := by
      rw [hobj, hne]
    rw [hpr]
    exact (pairAccel_self _ _ _).symm
  · rw [srcTerm, if_neg hne, ← hobj]

/- ### The acceleration fold depends only on the previous step's records -/

theorem srcTerm_congr (G : ℝ) (i : ℕ) (obj : Body) (s1 s2 : Body)
    (h : AccelView i s1 s2) : srcTerm G i obj s1 = srcTerm G i obj s2 := by
  obtain ⟨hm, hr⟩ := h
  by_cases he1 : obj = s1
  · by_cases he2 : obj = s2
    · rw [srcTerm, if_pos he1, srcTerm, if_pos he2]
    · rw [srcTerm, if_pos he1, srcTerm, if_neg he2]
      have hpr : (obj.pvt.getD (i - 1) zeroPVT).p = (s2.pvt.getD (i - 1) zeroPVT).p := by
        rw [he1, hr]
      rw [hpr]
      exact (pairAccel_self _ _ _).symm
  · by_cases he2 : obj = s2
    · rw [srcTerm, if_neg he1, srcTerm, if_pos he2]
      have hpr : (obj.pvt.getD (i - 1) zeroPVT).p = (s1.pvt.getD (i - 1) zeroPVT).p := by
        rw [he2, ← hr]
      rw [hpr, pairAccel_self]
    · rw [srcTerm, if_neg he1, srcTerm, if_neg he2, hm, hr]

theorem accel_congr (G : ℝ) (i : ℕ) (obj : Body) {l1 l2 : List Body}
    (h : List.Forall₂ (AccelView i) l1 l2) :
    accel G i l1 obj = accel G i l2 obj := by
  have hm : l1.map (srcTerm G i obj) = l2.map (srcTerm G i obj) := by
    induction h with
    | nil => rfl
    | cons hab _ ih => simp only [List.map_cons, ih, srcTerm_congr G i obj _ _ hab]
  rw [accel_eq_list_sum, accel_eq_list_sum, hm]

theorem stepBody_congr (G dt : ℝ) (i : ℕ) (obj : Body) {l1 l2 : List Body}
    (h : List.Forall₂ (AccelView i) l1 l2) :
    stepBody G dt i l1 obj = stepBody G dt i l2 obj := by
  rw [stepBody_eq, stepBody_eq, accel_congr G i obj h]

/- ### The body loop: shape and step-barrier characterisation -/

theorem stepAllGo_shape (G dt : ℝ) (i : ℕ) :
    ∀ (todo done : List Body), ∃ todo2,
      stepAllGo G dt i done todo = done ++ todo2 ∧
      List.Forall₂ (SetShape dt i) todo todo2 := by
  intro todo
  induction todo with
  | nil => intro done; exact ⟨[], by simp [stepAllGo], List.Forall₂.nil⟩
  | cons b rest ih =>
      intro done
      obtain ⟨t2, he, hf⟩ := ih (done ++ [stepBody G dt i (done ++ b :: rest) b])
      refine ⟨stepBody G dt i (done ++ b :: rest) b :: t2, ?_, ?_⟩
      · rw [stepAllGo, he, List.append_assoc]
        rfl
      · exact List.Forall₂.cons ⟨_, _, rfl⟩ hf

theorem stepAll_shape (G dt : ℝ) (i : ℕ) (objs : List Body) :
    List.Forall₂ (SetShape dt i) objs (stepAll G dt i objs) := by
  obtain ⟨t2, he, hf⟩ := stepAllGo_shape G dt i objs []
  rw [stepAll, he, List.nil_append]
  exact hf

theorem stepAllGo_map (G dt : ℝ) (i : ℕ) (hi : 1 ≤ i) (objs0 : List Body) :
    ∀ (suf pre : List Body), objs0 = pre ++ suf →
      stepAllGo G dt i (pre.map (stepBody G dt i objs0)) suf =
        objs0.map (stepBody G dt i objs0) := by
  intro suf
  induction suf with
  | nil => intro pre h; rw [stepAllGo, h, List.append_nil]
  | cons b rest ih =>
      intro pre h
      rw [stepAllGo]
      have hkey : stepBody G dt i (pre.map (stepBody G dt i objs0) ++ b :: rest) b
          = stepBody G dt i (pre ++ b :: rest) b := by
        apply stepBody_congr
        apply List.rel_append
        · rw [List.forall₂_map_left_iff]
          apply List.forall₂_same.mpr
          intro x hx
          exact ⟨stepBody_mass G dt i objs0 x,
            stepBody_getD_ne G dt i objs0 x (i - 1) (by omega) zeroPVT⟩
        · exact List.forall₂_same.mpr (fun x _ => ⟨rfl, rfl⟩)
      rw [← h] at hkey
      rw [hkey]
      have hmap : pre.map (stepBody G dt i objs0) ++ [stepBody G dt i objs0 b]
          = (pre ++ [b]).map (stepBody G dt i objs0) := by
        rw [List.map_append]
        rfl
      rw [hmap]
      exact ih (pre ++ [b]) (by rw [h, List.append_assoc]; rfl)

theorem stepAll_map (G dt : ℝ) (i : ℕ) (hi : 1 ≤ i) (objs : List Body) :
    stepAll G dt i objs = objs.map (stepBody G dt i objs) :=
  stepAllGo_map G dt i hi objs objs [] rfl

/- ### Positionwise access to Forall₂ facts -/

theorem forall2_comp {R S T : Body → Body → Prop}
    (h : ∀ a b c, R a b → S b c → T a c) :
    ∀ {l1 l2 l3 : List Body}, List.Forall₂ R l1 l2 → List.Forall₂ S l2 l3 →
      List.Forall₂ T l1 l3 := by
  intro l1 l2 l3 h12
  induction h12 generalizing l3 with
  | nil =>
      intro h23
      cases h23
      exact List.Forall₂.nil
  | cons hab htl ih =>
      intro h23
      cases h23 with
      | cons hbc htl2 => exact List.Forall₂.cons (h _ _ _ hab hbc) (ih htl2)

theorem forall2_getD {R : Body → Body → Prop} {l1 l2 : List Body}
    (h : List.Forall₂ R l1 l2) (k : ℕ) (hk : k < l1.length) :
    R (l1.getD k dBody) (l2.getD k dBody) := by
  have hl := h.length_eq
  rw [List.forall₂_iff_get] at h
  obtain ⟨-, h2⟩ := h
  have h3 := h2 k hk (by omega)
  simpa [List.get_eq_getElem, List.getD_eq_getElem, hk, hl ▸ hk] using h3

theorem forall2_map_eq {R : Body → Body → Prop} {f : Body → String}
    (hf : ∀ a b, R a b → f b = f a) :
    ∀ {l1 l2 : List Body}, List.Forall₂ R l1 l2 → l2.map f = l1.map f := by
  intro l1 l2 h
  induction h with
  | nil => rfl
  | cons hab _ ih => simp only [List.map_cons, ih, hf _ _ hab]

theorem getD_set_ne (l : List PVT) (idx j : ℕ) (a d : PVT) (h : idx ≠ j) :
    (l.set idx a).getD j d = l.getD j d := by
  simp [List.getD, List.getElem?_set_ne h]

theorem getD_set_self (l : List PVT) (idx : ℕ) (a d : PVT) (h : idx < l.length) :
    (l.set idx a).getD idx d = a := by
  simp [List.getD, List.getElem?_set_self, h]

theorem getD_map (f : Body → Body) (l : List Body) (k : ℕ) (hk : k < l.length) :
    (l.map f).getD k dBody = f (l.getD k dBody) := by
  have hk2 : k < (l.map f).length := by simpa using hk
  rw [List.getD_eq_getElem _ _ hk2, List.getD_eq_getElem _ _ hk, List.getElem_map]

/- ### The time loop -/

theorem runSteps_preserved (G dt : ℝ) (objs : List Body) :
    ∀ m : ℕ, List.Forall₂ (Preserved m) objs (runSteps G dt objs m) := by
  intro m
  induction m with
  | zero =>
      exact List.forall₂_same.mpr (fun x _ => ⟨rfl, rfl, rfl, rfl, fun j _ => rfl⟩)
  | succ m ih =>
      refine forall2_comp ?_ ih (stepAll_shape G dt (m + 1) (runSteps G dt objs m))
      rintro a b c ⟨hn, hm, hr, hl, hrec⟩ ⟨P, V, rfl⟩
      refine ⟨hn, hm, hr, by simpa using hl, ?_⟩
      intro j hj
      have h1 : (b.pvt.set (m + 1) ⟨P, V, dt * (m + 1 : ℕ)⟩).getD j zeroPVT
          = b.pvt.getD j zeroPVT := getD_set_ne _ _ _ _ _ (by omega)
      exact h1.trans (hrec j (by omega))

theorem runSteps_names (G dt : ℝ) (objs : List Body) (m : ℕ) :
    (runSteps G dt objs m).map Body.name = objs.map Body.name :=
  forall2_map_eq (fun _ _ hp => hp.1) (runSteps_preserved G dt objs m)

theorem runSteps_length (G dt : ℝ) (objs : List Body) (m : ℕ) :
    (runSteps G dt objs m).length = objs.length :=
  (runSteps_preserved G dt objs m).length_eq.symm

theorem runSteps_stable (G dt : ℝ) (objs : List Body) (k j : ℕ) :
    ∀ m m0 : ℕ, j ≤ m0 → m0 ≤ m →
      ((runSteps G dt objs m).getD k dBody).pvt.getD j zeroPVT =
      ((runSteps G dt objs m0).getD k dBody).pvt.getD j zeroPVT := by
  intro m
  induction m with
  | zero =>
      intro m0 h1 h2
      have h3 : m0 = 0 := by omega
      rw [h3]
  | succ m ih =>
      intro m0 h1 h2
      rcases Nat.eq_or_lt_of_le h2 with he | hlt
      · rw [he]
      · have h3 : m0 ≤ m := by omega
        rw [← ih m0 h1 h3]
        show ((stepAll G dt (m + 1) (runSteps G dt objs m)).getD k dBody).pvt.getD j zeroPVT = _
        by_cases hk : k < (runSteps G dt objs m).length
        · obtain ⟨P, V, hc⟩ :=
            forall2_getD (stepAll_shape G dt (m + 1) (runSteps G dt objs m)) k hk
          rw [hc]
          exact getD_set_ne _ _ _ _ _ (by omega)
        · have hlen2 : (stepAll G dt (m + 1) (runSteps G dt objs m)).length
              = (runSteps G dt objs m).length :=
            (stepAll_shape G dt (m + 1) (runSteps G dt objs m)).length_eq.symm
          have e1 : (stepAll G dt (m + 1) (runSteps G dt objs m)).getD k dBody = dBody :=
            List.getD_eq_default _ _ (by omega)
          have e2 : (runSteps G dt objs m).getD k dBody = dBody :=
            List.getD_eq_default _ _ (by omega)
          rw [e1, e2]

theorem runSteps_getD_succ (G dt : ℝ) (objs : List Body)
    (i : ℕ) (hi : 1 ≤ i) (k : ℕ)
    (hk : k < objs.length) :
    (runSteps G dt objs i).getD k dBody =
      stepBody G dt i (runSteps G dt objs (i - 1))
        ((runSteps G dt objs (i - 1)).getD k dBody) := by
  obtain ⟨m, rfl⟩ : ∃ m, i = m + 1 := ⟨i - 1, by omega⟩
  have hmap := stepAll_map G dt (m + 1) (by omega) (runSteps G dt objs m)
  have hk2 : k < (runSteps G dt objs m).length := by rw [runSteps_length]; exact hk
  show (stepAll G dt (m + 1) (runSteps G dt objs m)).getD k dBody = _
  rw [hmap, getD_map _ _ _ hk2]
  simp only [Nat.add_sub_cancel]

theorem run_objects (s : SimRun) :
    (SimRun.run s).objects = runSteps s.G s.dt s.objects (s.n_steps - 1).toNat := by
  show (List.range' 1 (s.n_steps - 1).toNat).foldl _ s.objects = _
  generalize (s.n_steps - 1).toNat = m
  induction m with
  | zero => rfl
  | succ m ih =>
      have hr : List.range' 1 (m + 1) = List.range' 1 m ++ [1 + 1 * m] :=
        List.range'_concat 1 m
      have h2 : 1 + 1 * m = m + 1 := by omega
      rw [hr, List.foldl_append, ih, List.foldl_cons, List.foldl_nil, h2]
      rfl

theorem gravAccel_congr (l1 l2 : List Body) (G : ℝ) (k j : ℕ)
    (hlen : l1.length = l2.length) (hk : k < l1.length)
    (hmass : ∀ l, l < l1.length → (l1.getD l dBody).mass = (l2.getD l dBody).mass)
    (hrec : ∀ l, l < l1.length →
      (l1.getD l dBody).pvt.getD j zeroPVT = (l2.getD l dBody).pvt.getD j zeroPVT) :
    gravAccel l1 G k j = gravAccel l2 G k j := by
  unfold gravAccel
  rw [← hlen]
  apply Finset.sum_congr rfl
  intro l hl
  have hlr : l < l1.length := Finset.mem_range.mp (Finset.mem_of_mem_erase hl)
  rw [hmass l hlr, hrec l hlr, hrec k hk]

/- ### The recurrence satisfied by the finished run -/

theorem run_objects_length (s : SimRun) : s.run.objects.length = s.objects.length := by
  rw [run_objects, runSteps_length]

theorem run_getD_preserved (s : SimRun) (k : ℕ) (hk : k < s.objects.length) :
    Preserved (s.n_steps - 1).toNat (s.objects.getD k dBody) (s.run.objects.getD k dBody) := by
  rw [run_objects]
  exact forall2_getD (runSteps_preserved s.G s.dt s.objects (s.n_steps - 1).toNat) k hk

theorem run_getD_step (s : SimRun)
    (hlen : ∀ b ∈ s.objects, b.pvt.length = s.n_steps.toNat)
    (i k : ℕ) (hi1 : 1 ≤ i) (hin : i < s.n_steps.toNat) (hk : k < s.objects.length) :
    trajRec s.run k i =
      newRec s.dt i (trajRec s.run k (i - 1)) (gravAccel s.run.objects s.G k (i - 1)) := by
  have hm : i ≤ (s.n_steps - 1).toNat := by omega
  have hrun : s.run.objects = runSteps s.G s.dt s.objects (s.n_steps - 1).toNat :=
    run_objects s
  have hprevk : k < (runSteps s.G s.dt s.objects (i - 1)).length := by
    rw [runSteps_length]; exact hk
  have hmem : s.objects.getD k dBody ∈ s.objects := by
    rw [List.getD_eq_getElem _ _ hk]; exact List.getElem_mem hk
  have hplen : ((runSteps s.G s.dt s.objects (i - 1)).getD k dBody).pvt.length
      = s.n_steps.toNat := by
    have hp := forall2_getD (runSteps_preserved s.G s.dt s.objects (i - 1)) k hk
    rw [hp.2.2.2.1, hlen _ hmem]
  -- entry i of the final state is entry i right after step i
  have step1 : trajRec s.run k i =
      ((runSteps s.G s.dt s.objects i).getD k dBody).pvt.getD i zeroPVT := by
    rw [trajRec, hrun]
    exact runSteps_stable s.G s.dt s.objects k i _ i (le_refl i) hm
  -- step i writes entry i through stepBody over the committed state of step i-1
  have step2 := runSteps_getD_succ s.G s.dt s.objects i hi1 k hk
  have step3 : ((runSteps s.G s.dt s.objects i).getD k dBody).pvt.getD i zeroPVT =
      newRec s.dt i
        (((runSteps s.G s.dt s.objects (i - 1)).getD k dBody).pvt.getD (i - 1) zeroPVT)
        (accel s.G i (runSteps s.G s.dt s.objects (i - 1))
          ((runSteps s.G s.dt s.objects (i - 1)).getD k dBody)) := by
    rw [step2]
    exact stepBody_getD_self s.G s.dt i _ _ (by omega)
  have step4 : accel s.G i (runSteps s.G s.dt s.objects (i - 1))
        ((runSteps s.G s.dt s.objects (i - 1)).getD k dBody)
      = gravAccel (runSteps s.G s.dt s.objects (i - 1)) s.G k (i - 1) :=
    accel_eq_gravAccel s.G i _ _ k hprevk rfl
  have step5 : ((runSteps s.G s.dt s.objects (i - 1)).getD k dBody).pvt.getD (i - 1) zeroPVT
      = trajRec s.run k (i - 1) := by
    rw [trajRec, hrun]
    exact (runSteps_stable s.G s.dt s.objects k (i - 1) _ (i - 1) (le_refl _) (by omega)).symm
  have step6 : gravAccel (runSteps s.G s.dt s.objects (i - 1)) s.G k (i - 1)
      = gravAccel s.run.objects s.G k (i - 1) := by
    rw [hrun]
    apply gravAccel_congr
    · rw [runSteps_length, runSteps_length]
    · exact hprevk
    · intro l hl
      have hl2 : l < s.objects.length := by rw [runSteps_length] at hl; exact hl
      have hp1 := forall2_getD (runSteps_preserved s.G s.dt s.objects (i - 1)) l hl2
      have hp2 := forall2_getD
        (runSteps_preserved s.G s.dt s.objects (s.n_steps - 1).toNat) l hl2
      rw [hp1.2.1, hp2.2.1]
    · intro l hl
      have hl2 : l < s.objects.length := by rw [runSteps_length] at hl; exact hl
      exact (runSteps_stable s.G s.dt s.objects l (i - 1) _ (i - 1) (le_refl _) (by omega)).symm
  rw [step1, step3, step4, step5, step6]

/- ### Evaluation lemmas for the constructor and registration -/

theorem mkSimRun_ok (dtq mtq : Quantity) (lu tu mu : PhUnit) (dtc mtc gq : Quantity)
    (hdt : dtq.to tu = Except.ok dtc) (hmt : mtq.to tu = Except.ok mtc)
    (hne : ¬ dtc.value = 0) (hG : G_SI.to (simGUnit lu mu tu) = Except.ok gq) :
    mkSimRun dtq mtq lu tu mu = Except.ok
      ⟨dtc.value, ⌈mtc.value / dtc.value⌉ + 1,
       ⟨dtq.value * ((⌈mtc.value / dtc.value⌉ + 1 - 1 : ℤ) : ℝ), dtq.unit⟩,
       [], lu, tu, mu, gq.value⟩ := by
  simp only [mkSimRun, hdt, hmt, if_neg hne, hG]

theorem mkSimRun_err_dtUnit (dtq mtq : Quantity) (lu tu mu : PhUnit)
    (h : dtq.unit.dim ≠ tu.dim) :
    mkSimRun dtq mtq lu tu mu = Except.error "UnitConversionError" := by
  have hdt : dtq.to tu = Except.error "UnitConversionError" := by
    rw [Quantity.to, if_neg h]
  simp only [mkSimRun, hdt]

theorem mkSimRun_err_zero (dtq mtq : Quantity) (lu tu mu : PhUnit) (dtc mtc : Quantity)
    (hdt : dtq.to tu = Except.ok dtc) (hmt : mtq.to tu = Except.ok mtc)
    (hz : dtc.value = 0) :
    mkSimRun dtq mtq lu tu mu = Except.error "OverflowError" := by
  simp only [mkSimRun, hdt, hmt, if_pos hz]

theorem add_object_ok (s : SimRun) (nm : String) (x0 y0 z0 vx0 vy0 vz0 m r : Quantity)
    (xc yc zc vxc vyc vzc mc rc : Quantity)
    (hx : x0.to s.len_unit = Except.ok xc)
    (hy : y0.to s.len_unit = Except.ok yc)
    (hz : z0.to s.len_unit = Except.ok zc)
    (hvx : vx0.to (s.len_unit.div s.time_unit) = Except.ok vxc)
    (hvy : vy0.to (s.len_unit.div s.time_unit) = Except.ok vyc)
    (hvz : vz0.to (s.len_unit.div s.time_unit) = Except.ok vzc)
    (hm : m.to s.mass_unit = Except.ok mc)
    (hr : r.to s.len_unit = Except.ok rc)
    (hn : 0 < s.n_steps) :
    s.add_object nm x0 y0 z0 vx0 vy0 vz0 m r = Except.ok
      { s with objects := s.objects ++
        [⟨nm, mc.value, rc.value,
          ⟨![xc.value, yc.value, zc.value], ![vxc.value, vyc.value, vzc.value], 0⟩ ::
            List.replicate (s.n_steps.toNat - 1) zeroPVT⟩] } := by
  simp only [SimRun.add_object, if_neg (by omega : ¬ s.n_steps < 0),
    if_neg (by omega : ¬ s.n_steps = 0), hx, hy, hz, hvx, hvy, hvz, hm, hr,
    bind, Except.bind]

theorem add_object_err_neg (s : SimRun) (nm : String)
    (x0 y0 z0 vx0 vy0 vz0 m r : Quantity) (hn : s.n_steps < 0) :
    s.add_object nm x0 y0 z0 vx0 vy0 vz0 m r = Except.error "ValueError" := by
  simp only [SimRun.add_object, if_pos hn]

theorem add_object_err_unit (s : SimRun) (nm : String)
    (x0 y0 z0 vx0 vy0 vz0 m r : Quantity) (hn : ¬ s.n_steps < 0)
    (hxdim : x0.unit.dim ≠ s.len_unit.dim) :
    s.add_object nm x0 y0 z0 vx0 vy0 vz0 m r = Except.error "UnitConversionError" := by
  have hx : x0.to s.len_unit = Except.error "UnitConversionError" := by
    rw [Quantity.to, if_neg hxdim]
  simp only [SimRun.add_object, if_neg hn, hx, bind, Except.bind]

/-- Inversion for a successful add_object: recover the conversions and the
exact resulting state. -/
theorem add_object_inv (s : SimRun) (nm : String) (x0 y0 z0 vx0 vy0 vz0 m r : Quantity)
    (s2 : SimRun) (h : s.add_object nm x0 y0 z0 vx0 vy0 vz0 m r = Except.ok s2) :
    0 < s.n_steps ∧
    ∃ xc yc zc vxc vyc vzc mc rc : Quantity,
      x0.to s.len_unit = Except.ok xc ∧
      y0.to s.len_unit = Except.ok yc ∧
      z0.to s.len_unit = Except.ok zc ∧
      vx0.to (s.len_unit.div s.time_unit) = Except.ok vxc ∧
      vy0.to (s.len_unit.div s.time_unit) = Except.ok vyc ∧
      vz0.to (s.len_unit.div s.time_unit) = Except.ok vzc ∧
      m.to s.mass_unit = Except.ok mc ∧
      r.to s.len_unit = Except.ok rc ∧
      s2 = { s with objects := s.objects ++
        [⟨nm, mc.value, rc.value,
          ⟨![xc.value, yc.value, zc.value], ![vxc.value, vyc.value, vzc.value], 0⟩ ::
            List.replicate (s.n_steps.toNat - 1) zeroPVT⟩] } := by
  by_cases hneg : s.n_steps < 0
  · rw [add_object_err_neg s nm x0 y0 z0 vx0 vy0 vz0 m r hneg] at h
    cases h
  rw [SimRun.add_object, if_neg hneg] at h
  cases hx : x0.to s.len_unit with
  | error e => rw [hx] at h; simp only [bind, Except.bind] at h; cases h
  | ok xc =>
  rw [hx] at h; simp only [bind, Except.bind] at h
  by_cases hz0 : s.n_steps = 0
  · rw [if_pos hz0] at h; cases h
  rw [if_neg hz0] at h
  cases hy : y0.to s.len_unit with
  | error e => rw [hy] at h; simp only [bind, Except.bind] at h; cases h
  | ok yc =>
  rw [hy] at h; simp only [bind, Except.bind] at h
  cases hz : z0.to s.len_unit with
  | error e => rw [hz] at h; simp only [bind, Except.bind] at h; cases h
  | ok zc =>
  rw [hz] at h; simp only [bind, Except.bind] at h
  cases hvx : vx0.to (s.len_unit.div s.time_unit) with
  | error e => rw [hvx] at h; simp only [bind, Except.bind] at h; cases h
  | ok vxc =>
  rw [hvx] at h; simp only [bind, Except.bind] at h
  cases hvy : vy0.to (s.len_unit.div s.time_unit) with
  | error e => rw [hvy] at h; simp only [bind, Except.bind] at h; cases h
  | ok vyc =>
  rw [hvy] at h; simp only [bind, Except.bind] at h
  cases hvz : vz0.to (s.len_unit.div s.time_unit) with
  | error e => rw [hvz] at h; simp only [bind, Except.bind] at h; cases h
  | ok vzc =>
  rw [hvz] at h; simp only [bind, Except.bind] at h
  cases hm : m.to s.mass_unit with
  | error e => rw [hm] at h; simp only [bind, Except.bind] at h; cases h
  | ok mc =>
  rw [hm] at h; simp only [bind, Except.bind] at h
  cases hr : r.to s.len_unit with
  | error e => rw [hr] at h; simp only [bind, Except.bind] at h; cases h
  | ok rc =>
  rw [hr] at h; simp only [bind, Except.bind] at h
  refine ⟨by omega, xc, yc, zc, vxc, vyc, vzc, mc, rc, rfl, rfl, rfl, rfl, rfl, rfl, rfl, rfl, ?_⟩
  cases h
  rfl

/-- Entry i of the finished run has the step-i shape (no distinctness of
names needed): some position and velocity, and time exactly dt*i. -/
theorem run_getD_shape (s : SimRun)
    (hlen : ∀ b ∈ s.objects, b.pvt.length = s.n_steps.toNat)
    (i k : ℕ) (hi1 : 1 ≤ i) (hin : i < s.n_steps.toNat) (hk : k < s.objects.length) :
    ∃ P V, trajRec s.run k i = ⟨P, V, s.dt * i⟩ := by
  have hm : i ≤ (s.n_steps - 1).toNat := by omega
  have hmem : s.objects.getD k dBody ∈ s.objects := by
    rw [List.getD_eq_getElem _ _ hk]; exact List.getElem_mem hk
  have step1 : trajRec s.run k i =
      ((runSteps s.G s.dt s.objects i).getD k dBody).pvt.getD i zeroPVT := by
    rw [trajRec, run_objects]
    exact runSteps_stable s.G s.dt s.objects k i _ i (le_refl i) hm
  obtain ⟨m, rfl⟩ : ∃ m, i = m + 1 := ⟨i - 1, by omega⟩
  obtain ⟨P, V, hc⟩ := forall2_getD
    (stepAll_shape s.G s.dt (m + 1) (runSteps s.G s.dt s.objects m)) k
    (by rw [runSteps_length]; exact hk)
  refine ⟨P, V, ?_⟩
  rw [step1]
  show ((stepAll s.G s.dt (m + 1) (runSteps s.G s.dt s.objects m)).getD k dBody).pvt.getD
      (m + 1) zeroPVT = _
  rw [hc]
  have hlen2 : m + 1 < ((runSteps s.G s.dt s.objects m).getD k dBody).pvt.length := by
    have hp := forall2_getD (runSteps_preserved s.G s.dt s.objects m) k hk
    rw [hp.2.2.2.1, hlen _ hmem]; omega
  exact getD_set_self _ _ _ _ hlen2

/- ### The claims -/

/-- C10: run mutates only trajectory entries 1..n_steps-1: dt, n_steps, the
realized maxtime, the unit system, G, the number and order of registered
bodies, and every body's name, mass, radius, trajectory length and entry 0
are the same after run as before. -/
theorem run_frame (s : SimRun) :
    s.run.dt = s.dt ∧ s.run.n_steps = s.n_steps ∧ s.run.maxtime = s.maxtime ∧
    s.run.len_unit = s.len_unit ∧ s.run.time_unit = s.time_unit ∧
    s.run.mass_unit = s.mass_unit ∧ s.run.G = s.G ∧
    s.run.objects.length = s.objects.length ∧
    ∀ k, k < s.objects.length →
      (s.run.objects.getD k dBody).name = (s.objects.getD k dBody).name ∧
      (s.run.objects.getD k dBody).mass = (s.objects.getD k dBody).mass ∧
      (s.run.objects.getD k dBody).radius = (s.objects.getD k dBody).radius ∧
      (s.run.objects.getD k dBody).pvt.length = (s.objects.getD k dBody).pvt.length ∧
      ∀ j, j = 0 ∨ s.n_steps.toNat ≤ j →
        (s.run.objects.getD k dBody).pvt.getD j zeroPVT
          = (s.objects.getD k dBody).pvt.getD j zeroPVT := by
  refine ⟨rfl, rfl, rfl, rfl, rfl, rfl, rfl, run_objects_length s, ?_⟩
  intro k hk
  have hp := run_getD_preserved s k hk
  exact ⟨hp.1, hp.2.1, hp.2.2.1, hp.2.2.2.1, fun j hj => hp.2.2.2.2 j (by omega)⟩

theorem run_frame_witness :
    (sW.run.objects.getD 0 dBody).name = (sW.objects.getD 0 dBody).name ∧
    (sW.run.objects.getD 0 dBody).pvt.getD 0 zeroPVT
      = (sW.objects.getD 0 dBody).pvt.getD 0 zeroPVT := by
  obtain ⟨-, -, -, -, -, -, -, -, h⟩ := run_frame sW
  have h0 := h 0 (by simp [sW])
  exact ⟨h0.1, h0.2.2.2.2 0 (Or.inl rfl)⟩

/-- C5: step barrier: within one time step the update of every body is
computed from the fully committed state of the previous step; the in-place
body loop gives the same result as mapping the per-body update over the
frozen start-of-step list, so no step-i write is read while computing any
body's step-i acceleration. -/
theorem step_barrier (G dt : ℝ) (i : ℕ) (objs : List Body)
    (hi : 1 ≤ i) :
    stepAll G dt i objs = objs.map (stepBody G dt i objs) :=
  stepAll_map G dt i hi objs

theorem step_barrier_witness :
    stepAll 1 1 1 [bW1, bW2] = [bW1, bW2].map (stepBody 1 1 1 [bW1, bW2]) :=
  step_barrier 1 1 1 [bW1, bW2] (le_refl 1)

/-- C6: after run, the stored time of entry i equals dt * i exactly, for
every registered body and every index below n_steps. -/
theorem time_stamps (s : SimRun)
    (hlen : ∀ b ∈ s.objects, b.pvt.length = s.n_steps.toNat)
    (ht0 : ∀ b ∈ s.objects, (b.pvt.getD 0 zeroPVT).t = 0)
    (k i : ℕ) (hk : k < s.objects.length) (hin : i < s.n_steps.toNat) :
    (trajRec s.run k i).t = s.dt * i := by
  rcases Nat.eq_zero_or_pos i with rfl | hi1
  · have hp := run_getD_preserved s k hk
    have hmem : s.objects.getD k dBody ∈ s.objects := by
      rw [List.getD_eq_getElem _ _ hk]; exact List.getElem_mem hk
    rw [trajRec, hp.2.2.2.2 0 (Or.inl rfl)]
    rw [ht0 _ hmem]
    simp
  · obtain ⟨P, V, hc⟩ := run_getD_shape s hlen i k hi1 hin hk
    rw [hc]

theorem time_stamps_witness : (trajRec sW1.run 0 1).t = sW1.dt * (1 : ℕ) :=
  time_stamps sW1
    (by intro b hb; rcases List.mem_cons.mp hb with rfl | h2
        · rfl
        · simp at h2)
    (by intro b hb; rcases List.mem_cons.mp hb with rfl | h2
        · rfl
        · simp at h2)
    0 1 (by simp [sW1]) (by decide)

/- ### Bridging the faithful fallible comparison to the total embedding -/

theorem name_getD_ne (objs : List Body) (hnd : (objs.map Body.name).Nodup)
    (j k : ℕ) (hj : j < objs.length) (hk : k < objs.length) (hne : j ≠ k) :
    ¬ (objs.getD j dBody).name = (objs.getD k dBody).name := by
  intro he
  apply hne
  have hj2 : j < (objs.map Body.name).length := by simpa using hj
  have hk2 : k < (objs.map Body.name).length := by simpa using hk
  have hg : (objs.map Body.name).get ⟨j, hj2⟩ = (objs.map Body.name).get ⟨k, hk2⟩ := by
    simp only [List.get_eq_getElem, List.getElem_map]
    rw [List.getD_eq_getElem _ _ hj, List.getD_eq_getElem _ _ hk] at he
    exact he
  have h2 := hnd.get_inj_iff.mp hg
  simpa using h2

theorem dictEq_of_name_ne (obj src : Body) (h : ¬ obj.name = src.name) :
    dictEq false obj src = Except.ok false := by
  rw [dictEq, if_neg (by simp : ¬ (false = true)), if_pos h]

theorem dictEq_collision (obj src : Body) (hn : obj.name = src.name)
    (hm : obj.mass = src.mass) (hr : obj.radius = src.radius)
    (hl : ¬ (obj.pvt.length = 1 ∧ src.pvt.length = 1)) :
    dictEq false obj src = Except.error "ValueError" := by
  rw [dictEq, if_neg (by simp : ¬ (false = true)), if_neg (not_not_intro hn),
    if_neg (not_not_intro hm), if_neg (not_not_intro hr), if_neg hl]

theorem accelGo_cons_error (G : ℝ) (i k j : ℕ) (obj src : Body) (rest : List Body)
    (a : Vec3) (h : dictEq (decide (j = k)) obj src = Except.error "ValueError") :
    accelGo G i k obj j (src :: rest) a = Except.error "ValueError" := by
  simp only [accelGo, h]

theorem accelSrcsE_cons_error (obj : Body) (k j : ℕ) (src : Body) (rest : List Body)
    (h : dictEq (decide (j = k)) obj src = Except.error "ValueError") :
    accelSrcsE obj k j (src :: rest) = Except.error "ValueError" := by
  simp only [accelSrcsE, h]

theorem accelGo_eq (G : ℝ) (i k : ℕ) (obj : Body) :
    ∀ (t : List Body) (j : ℕ) (a : Vec3),
      (∀ idx, idx < t.length →
        ((j + idx = k → t.getD idx dBody = obj)
          ∧ (j + idx ≠ k → ¬ obj.name = (t.getD idx dBody).name))) →
      accelGo G i k obj j t a
        = Except.ok (t.foldl (fun a2 src => a2 + srcTerm G i obj src) a) := by
  intro t
  induction t with
  | nil => intro j a H; rfl
  | cons src rest ih =>
      intro j a H
      have H0 := H 0 (by simp)
      have Hs : ∀ idx, idx < rest.length →
          ((j + 1 + idx = k → rest.getD idx dBody = obj)
            ∧ (j + 1 + idx ≠ k → ¬ obj.name = (rest.getD idx dBody).name)) := by
        intro idx hidx
        have h2 := H (idx + 1) (by simp only [List.length_cons]; omega)
        constructor
        · intro hh
          have h3 := h2.1 (by omega)
          simpa using h3
        · intro hh
          have h3 := h2.2 (by omega)
          simpa using h3
      by_cases hjk : j = k
      · have hsrc : src = obj := by
          have h3 := H0.1 (by omega)
          simpa using h3
        have hd : dictEq (decide (j = k)) obj src = Except.ok true := by
          rw [decide_eq_true hjk]
          rfl
        simp only [accelGo, hd]
        rw [ih (j + 1) a Hs, List.foldl_cons]
        refine congrArg Except.ok (congrFun (congrArg (List.foldl _) ?_) rest)
        show a = a + srcTerm G i obj src
        rw [srcTerm, if_pos hsrc.symm, add_zero]
      · have hname : ¬ obj.name = src.name := by
          have h3 := H0.2 (by omega)
          simpa using h3
        have hd : dictEq (decide (j = k)) obj src = Except.ok false := by
          rw [decide_eq_false hjk]
          exact dictEq_of_name_ne obj src hname
        have hobj_ne : ¬ obj = src := fun he => hname (by rw [he])
        simp only [accelGo, hd]
        rw [ih (j + 1) _ Hs, List.foldl_cons]
        refine congrArg Except.ok (congrFun (congrArg (List.foldl _) ?_) rest)
        funext c
        show _ = a c + srcTerm G i obj src c
        rw [srcTerm, if_neg hobj_ne]
        rfl

/-- With pairwise distinct names the comparison never reaches the
trajectory arrays, and the positions whose skip differs from value
equality carry zero terms, so the two acceleration folds agree. -/
theorem collision_free_view (objs : List Body) (k : ℕ) (hk : k < objs.length)
    (obj : Body) (hobj : objs.getD k dBody = obj)
    (hnd : (objs.map Body.name).Nodup) :
    ∀ idx, idx < objs.length →
      ((0 + idx = k → objs.getD idx dBody = obj)
        ∧ (0 + idx ≠ k → ¬ obj.name = (objs.getD idx dBody).name)) := by
  intro idx hidx
  constructor
  · intro hh
    rw [show idx = k from by omega, hobj]
  · intro hh
    have hik : idx ≠ k := by omega
    intro he
    exact name_getD_ne objs hnd idx k hidx hk hik (by rw [hobj]; exact he.symm)

theorem accelE_eq_accel (G : ℝ) (i : ℕ) (objs : List Body) (k : ℕ) (obj : Body)
    (hk : k < objs.length) (hobj : objs.getD k dBody = obj)
    (hnd : (objs.map Body.name).Nodup) :
    accelE G i objs k obj = Except.ok (accel G i objs obj) := by
  rw [accel_eq_foldl_srcTerm]
  exact accelGo_eq G i k obj objs 0 _ (collision_free_view objs k hk obj hobj hnd)

theorem stepBodyE_eq (G dt : ℝ) (i : ℕ) (objs : List Body) (k : ℕ) (obj : Body)
    (hk : k < objs.length) (hobj : objs.getD k dBody = obj)
    (hnd : (objs.map Body.name).Nodup) :
    stepBodyE G dt i objs k obj = Except.ok (stepBody G dt i objs obj) := by
  simp only [stepBodyE, accelE_eq_accel G i objs k obj hk hobj hnd]
  rfl

theorem stepAllGoE_eq (G dt : ℝ) (i : ℕ) :
    ∀ (todo done : List Body), ((done ++ todo).map Body.name).Nodup →
      stepAllGoE G dt i done todo = Except.ok (stepAllGo G dt i done todo) := by
  intro todo
  induction todo with
  | nil => intro done h; rfl
  | cons b rest ih =>
      intro done hnd
      have hk : done.length < (done ++ b :: rest).length := by simp
      have hobj : (done ++ b :: rest).getD done.length dBody = b := by
        rw [List.getD_eq_getElem _ _ hk, List.getElem_append_right (le_refl done.length)]
        simp
      have hb := stepBodyE_eq G dt i (done ++ b :: rest) done.length b hk hobj hnd
      simp only [stepAllGoE, hb, stepAllGo]
      apply ih
      have hnames : ((done ++ [stepBody G dt i (done ++ b :: rest) b]) ++ rest).map Body.name
          = (done ++ b :: rest).map Body.name := by
        simp [stepBody_name]
      rw [hnames]
      exact hnd

theorem stepAllE_eq (G dt : ℝ) (i : ℕ) (objs : List Body)
    (hnd : (objs.map Body.name).Nodup) :
    stepAllE G dt i objs = Except.ok (stepAll G dt i objs) :=
  stepAllGoE_eq G dt i objs [] (by simpa using hnd)

theorem stepAll_names (G dt : ℝ) (i : ℕ) (objs : List Body) :
    (stepAll G dt i objs).map Body.name = objs.map Body.name :=
  forall2_map_eq (fun a b h => by obtain ⟨P, V, rfl⟩ := h; rfl)
    (stepAll_shape G dt i objs)

theorem foldl_stepAll_eq_runSteps (G dt : ℝ) : ∀ (m : ℕ) (objs : List Body),
    (List.range' 1 m).foldl (fun l i => stepAll G dt i l) objs = runSteps G dt objs m := by
  intro m
  induction m with
  | zero => intro objs; rfl
  | succ m ih =>
      intro objs
      have hr : List.range' 1 (m + 1) = List.range' 1 m ++ [1 + 1 * m] :=
        List.range'_concat 1 m
      have h2 : 1 + 1 * m = m + 1 := by omega
      rw [hr, List.foldl_append, ih, List.foldl_cons, List.foldl_nil, h2]
      rfl

theorem runE_foldl_eq (G dt : ℝ) : ∀ (m : ℕ) (objs : List Body),
    (objs.map Body.name).Nodup →
    (List.range' 1 m).foldl
        (fun st i =>
          match st with
          | Except.error e => Except.error e
          | Except.ok l => stepAllE G dt i l)
        (Except.ok objs)
      = Except.ok (runSteps G dt objs m) := by
  intro m
  induction m with
  | zero => intro objs h; rfl
  | succ m ih =>
      intro objs hnd
      have hr : List.range' 1 (m + 1) = List.range' 1 m ++ [1 + 1 * m] :=
        List.range'_concat 1 m
      have h2 : 1 + 1 * m = m + 1 := by omega
      rw [hr, List.foldl_append, ih objs hnd, List.foldl_cons, List.foldl_nil, h2]
      show stepAllE G dt (m + 1) (runSteps G dt objs m) = _
      rw [stepAllE_eq G dt (m + 1) _ (by rw [runSteps_names]; exact hnd)]
      rfl

/-- On a state with pairwise distinct registered names the faithful
fallible run raises nothing and returns exactly the total run's state. -/
theorem runE_eq_run (s : SimRun) (hnd : (s.objects.map Body.name).Nodup) :
    s.runE = Except.ok s.run := by
  have hrun : s.run = { s with objects := runSteps s.G s.dt s.objects (s.n_steps - 1).toNat } := by
    unfold SimRun.run
    rw [foldl_stepAll_eq_runSteps]
  unfold SimRun.runE
  rw [runE_foldl_eq s.G s.dt _ s.objects hnd, hrun]

/- ### C4: what the skip test actually does -/

theorem accelSrcsE_eq (obj : Body) (k : ℕ) :
    ∀ (t : List Body) (j : ℕ),
      (∀ idx, idx < t.length →
        ((j + idx = k → t.getD idx dBody = obj)
          ∧ (j + idx ≠ k → ¬ obj.name = (t.getD idx dBody).name))) →
      accelSrcsE obj k j t
        = Except.ok (if j ≤ k ∧ k - j < t.length then t.eraseIdx (k - j) else t) := by
  intro t
  induction t with
  | nil =>
      intro j H
      show Except.ok [] = _
      rw [if_neg (by simp : ¬ (j ≤ k ∧ k - j < ([] : List Body).length))]
  | cons src rest ih =>
      intro j H
      have H0 := H 0 (by simp)
      have Hs : ∀ idx, idx < rest.length →
          ((j + 1 + idx = k → rest.getD idx dBody = obj)
            ∧ (j + 1 + idx ≠ k → ¬ obj.name = (rest.getD idx dBody).name)) := by
        intro idx hidx
        have h2 := H (idx + 1) (by simp only [List.length_cons]; omega)
        constructor
        · intro hh
          have h3 := h2.1 (by omega)
          simpa using h3
        · intro hh
          have h3 := h2.2 (by omega)
          simpa using h3
      by_cases hjk : j = k
      · have hd : dictEq (decide (j = k)) obj src = Except.ok true := by
          rw [decide_eq_true hjk]
          rfl
        simp only [accelSrcsE, hd]
        rw [ih (j + 1) Hs]
        congr 1
        rw [if_neg (by omega : ¬ (j + 1 ≤ k ∧ k - (j + 1) < rest.length)),
          if_pos (by simp only [List.length_cons]; omega : j ≤ k ∧ k - j < (src :: rest).length),
          show k - j = 0 from by omega]
        rfl
      · have hname : ¬ obj.name = src.name := by
          have h3 := H0.2 (by omega)
          simpa using h3
        have hd : dictEq (decide (j = k)) obj src = Except.ok false := by
          rw [decide_eq_false hjk]
          exact dictEq_of_name_ne obj src hname
        simp only [accelSrcsE, hd]
        rw [ih (j + 1) Hs]
        show Except.ok (src :: _) = _
        congr 1
        by_cases hin : j + 1 ≤ k ∧ k - (j + 1) < rest.length
        · rw [if_pos hin,
            if_pos (by simp only [List.length_cons]; omega : j ≤ k ∧ k - j < (src :: rest).length),
            show k - j = (k - (j + 1)) + 1 from by omega]
          rfl
        · rw [if_neg hin,
            if_neg (by simp only [List.length_cons]; omega :
              ¬ (j ≤ k ∧ k - j < (src :: rest).length))]

/-- C4 (amended): the exclusion test is Python value equality of the body
dict, evaluated name, mass, radius in insertion order with short-circuit:
with pairwise distinct registered names it skips exactly the entry that is
B itself (the same list position) and every other registered body
contributes one term; but for a source distinct from B agreeing with B on
name, mass and radius the comparison truth-tests the multi-record
trajectory arrays and run raises ValueError instead of contributing a
term. -/
theorem skip_test_sources (objs : List Body) (k : ℕ) (hk : k < objs.length)
    (hnd : (objs.map Body.name).Nodup) :
    accelSrcsE (objs.getD k dBody) k 0 objs = Except.ok (objs.eraseIdx k) := by
  rw [accelSrcsE_eq (objs.getD k dBody) k objs 0
    (collision_free_view objs k hk (objs.getD k dBody) rfl hnd)]
  congr 1
  rw [if_pos ⟨by omega, by simpa using hk⟩, Nat.sub_zero]

theorem skip_test_sources_witness :
    accelSrcsE ([bW1, bW2].getD 0 dBody) 0 0 [bW1, bW2]
      = Except.ok ([bW1, bW2].eraseIdx 0) :=
  skip_test_sources [bW1, bW2] 0 (by simp) (by simp [bW1, bW2])

/-- C4 counterexample: register the same record twice.  The claim says the
other registration still contributes one term; in fact the obj == src
comparison at the other position finds name, mass and radius equal,
reaches the two-record trajectory arrays, and raises ValueError: the loop
yields no source at all. -/
theorem skip_test_collision_cex :
    accelSrcsE bDup 0 0 [bDup, bDup] = Except.error "ValueError"
    ∧ (Except.error "ValueError" : Except String (List Body)) ≠ Except.ok [bDup] := by
  constructor
  · have h1 : dictEq (decide ((1 : ℕ) = 0)) bDup bDup = Except.error "ValueError" := by
      rw [show (decide ((1 : ℕ) = 0)) = false from rfl]
      exact dictEq_collision bDup bDup rfl rfl rfl (by simp [bDup])
    have hstep : accelSrcsE bDup 0 0 [bDup, bDup] = accelSrcsE bDup 0 1 [bDup] := rfl
    rw [hstep]
    exact accelSrcsE_cons_error bDup 0 1 bDup [] h1
  · simp

/-- C1 (amended): on every simulation state whose registered bodies bear
pairwise distinct names and whose trajectories have n_steps records (the
shape add_object allocates), the body comparisons of run never reach the
trajectory arrays, so run raises nothing — the fallible run agrees with
the total one — and for every step index i in 1..n_steps-1 and every
registered body it commits exactly the acceleration equal to the sum over
every other body S of -G*mass(S)*r/|r|^3 with r the step-(i-1)
separation, then the position update p + v*dt + (a/2)*dt^2, then the
velocity update v + a*dt; and G is the gravitational constant converted
once at construction to the simulation's length/mass/time units.  Without
distinct names the obj == src comparison can instead raise ValueError and
commit nothing (run_name_collision_cex). -/
theorem run_commits_updates :
    (∀ (s : SimRun), (s.objects.map Body.name).Nodup →
      (∀ b ∈ s.objects, b.pvt.length = s.n_steps.toNat) →
      s.runE = Except.ok s.run ∧
      ∀ i k : ℕ, 1 ≤ i → i < s.n_steps.toNat → k < s.objects.length →
        (∀ c, (trajRec s.run k i).p c =
            (trajRec s.run k (i - 1)).p c + (trajRec s.run k (i - 1)).v c * s.dt
              + (gravAccel s.run.objects s.G k (i - 1) c / 2) * s.dt ^ 2)
        ∧ (∀ c, (trajRec s.run k i).v c =
            (trajRec s.run k (i - 1)).v c + gravAccel s.run.objects s.G k (i - 1) c * s.dt))
    ∧ (∀ (dtq mtq : Quantity) (lu tu mu : PhUnit) (s0 : SimRun),
        mkSimRun dtq mtq lu tu mu = Except.ok s0 →
        ∃ gq, G_SI.to (simGUnit lu mu tu) = Except.ok gq ∧ s0.G = gq.value) := by
  constructor
  · intro s hnd hlen
    refine ⟨runE_eq_run s hnd, ?_⟩
    intro i k hi1 hin hk
    have h := run_getD_step s hlen i k hi1 hin hk
    constructor
    · intro c; rw [h]; rfl
    · intro c; rw [h]; rfl
  · intro dtq mtq lu tu mu s0 h
    cases hdt : dtq.to tu with
    | error e => simp only [mkSimRun, hdt] at h; cases h
    | ok dtc =>
    cases hmt : mtq.to tu with
    | error e => simp only [mkSimRun, hdt, hmt] at h; cases h
    | ok mtc =>
    simp only [mkSimRun, hdt, hmt] at h
    by_cases hz : dtc.value = 0
    · rw [if_pos hz] at h; cases h
    rw [if_neg hz] at h
    cases hG : G_SI.to (simGUnit lu mu tu) with
    | error e => rw [hG] at h; cases h
    | ok gq =>
      rw [hG] at h
      cases h
      exact ⟨gq, rfl, rfl⟩

theorem run_commits_updates_witness :
    sW.runE = Except.ok sW.run
    ∧ ((∀ c, (trajRec sW.run 0 1).p c =
        (trajRec sW.run 0 0).p c + (trajRec sW.run 0 0).v c * sW.dt
          + (gravAccel sW.run.objects sW.G 0 0 c / 2) * sW.dt ^ 2)
    ∧ (∀ c, (trajRec sW.run 0 1).v c =
        (trajRec sW.run 0 0).v c + gravAccel sW.run.objects sW.G 0 0 c * sW.dt)) := by
  have h := run_commits_updates.1 sW (by simp [sW, bW1, bW2])
    (by intro b hb
        rcases List.mem_cons.mp hb with rfl | h2
        · rfl
        · rcases List.mem_cons.mp h2 with rfl | h3
          · rfl
          · simp at h3)
  exact ⟨h.1, h.2 1 0 (le_refl 1) (by decide) (by simp [sW])⟩

/-- C1 counterexample: a state holding two distinct bodies that agree on
name, mass and radius (the same point registered under one name twice, at
different positions, with two-record trajectories).  The first obj == src
comparison against the other body finds name, mass and radius equal,
truth-tests the two-record trajectory comparison, and run raises
ValueError, committing nothing. -/
theorem run_name_collision_cex :
    sDup.runE = Except.error "ValueError"
    ∧ sDup.runE ≠ Except.ok sDup.run := by
  have h1 : dictEq (decide ((1 : ℕ) = 0)) bDup bCol2 = Except.error "ValueError" := by
    rw [show (decide ((1 : ℕ) = 0)) = false from rfl]
    exact dictEq_collision bDup bCol2 rfl rfl rfl (by simp [bDup, bCol2])
  have hacc : accelE 1 1 [bDup, bCol2] 0 bDup = Except.error "ValueError" := by
    have hskip : accelE 1 1 [bDup, bCol2] 0 bDup
        = accelGo 1 1 0 bDup 1 [bCol2] (fun _ => 0) := rfl
    rw [hskip]
    exact accelGo_cons_error 1 1 0 1 bDup bCol2 [] _ h1
  have hstep : stepBodyE 1 1 1 [bDup, bCol2] 0 bDup = Except.error "ValueError" := by
    simp only [stepBodyE, hacc]
  have hall : stepAllE 1 1 1 [bDup, bCol2] = Except.error "ValueError" := by
    simp only [stepAllE, stepAllGoE, List.nil_append, List.length_nil, hstep]
  have hrunE : sDup.runE = Except.error "ValueError" := by
    unfold SimRun.runE
    rw [show (sDup.n_steps - 1).toNat = 1 from rfl,
      show List.range' 1 1 = [1] from rfl, List.foldl_cons, List.foldl_nil]
    show (match stepAllE sDup.G sDup.dt 1 sDup.objects with
      | Except.error e => Except.error e
      | Except.ok l => Except.ok { sDup with objects := l }) = Except.error "ValueError"
    rw [show stepAllE sDup.G sDup.dt 1 sDup.objects = Except.error "ValueError" from hall]
  exact ⟨hrunE, by rw [hrunE]; simp⟩

/- ### Single-body helpers for C3 -/

theorem gravAccel_single (l : List Body) (G : ℝ) (j : ℕ) (hl : l.length = 1) :
    gravAccel l G 0 j = 0 := by
  unfold gravAccel
  rw [hl]
  simp [Finset.range_one]

theorem single_run_closed_form (s : SimRun) (b : Body) (hobj : s.objects = [b])
    (hlen : b.pvt.length = s.n_steps.toNat) :
    ∀ i, i < s.n_steps.toNat →
      (∀ c, (trajRec s.run 0 i).p c
          = (b.pvt.getD 0 zeroPVT).p c + (b.pvt.getD 0 zeroPVT).v c * s.dt * i)
      ∧ (∀ c, (trajRec s.run 0 i).v c = (b.pvt.getD 0 zeroPVT).v c) := by
  intro i
  induction i with
  | zero =>
      intro h0
      have hk : 0 < s.objects.length := by rw [hobj]; simp
      have hp := run_getD_preserved s 0 hk
      have hb0 : s.objects.getD 0 dBody = b := by rw [hobj]; rfl
      have he : trajRec s.run 0 0 = b.pvt.getD 0 zeroPVT := by
        rw [trajRec, hp.2.2.2.2 0 (Or.inl rfl), hb0]
      constructor
      · intro c; rw [he]; simp
      · intro c; rw [he]
  | succ i ih =>
      intro hin
      obtain ⟨ihp, ihv⟩ := ih (by omega)
      have hlen2 : ∀ b2 ∈ s.objects, b2.pvt.length = s.n_steps.toNat := by
        rw [hobj]
        intro b2 hb2
        rcases List.mem_cons.mp hb2 with rfl | h2
        · exact hlen
        · simp at h2
      have hk : 0 < s.objects.length := by rw [hobj]; simp
      have h := run_getD_step s hlen2 (i + 1) 0 (by omega) hin hk
      have hga : gravAccel s.run.objects s.G 0 (i + 1 - 1) = 0 := by
        apply gravAccel_single
        rw [run_objects_length, hobj]
        rfl
      rw [hga] at h
      simp only [Nat.add_sub_cancel] at h
      constructor
      · intro c
        rw [h]
        show (trajRec s.run 0 i).p c + (trajRec s.run 0 i).v c * s.dt
            + ((0 : Vec3) c / 2) * s.dt ^ 2 = _
        rw [ihp c, ihv c]
        simp only [Pi.zero_apply]
        push_cast
        ring
      · intro c
        rw [h]
        show (trajRec s.run 0 i).v c + (0 : Vec3) c * s.dt = _
        rw [ihv c]
        simp

/-- C3: with a single registered body the comparison loop skips the body
itself (the identity shortcut), the acceleration fold raises nothing and is
exactly zero at every step, run raises nothing, velocity keeps its initial
value, and position advances linearly; concretely, dt = 1 s and maxtime =
10 s give n_steps = 11 and actual maxtime 10 s, and a single body starting
at the origin with velocity (1,0,0) m/s ends at entry 10 with position
(10,0,0) m and velocity (1,0,0) m/s. -/
theorem single_body_linear :
    (∀ (G : ℝ) (i : ℕ) (b : Body), accelE G i [b] 0 b = Except.ok (fun _ => 0))
    ∧ (∀ (s : SimRun) (b : Body), s.objects = [b] →
        b.pvt.length = s.n_steps.toNat →
        s.runE = Except.ok s.run ∧
        ∀ i, i < s.n_steps.toNat →
          (∀ c, (trajRec s.run 0 i).p c
              = (b.pvt.getD 0 zeroPVT).p c + (b.pvt.getD 0 zeroPVT).v c * s.dt * i)
          ∧ (∀ c, (trajRec s.run 0 i).v c = (b.pvt.getD 0 zeroPVT).v c))
    ∧ (∃ s0 s1 : SimRun,
        mkSimRun ⟨1, second⟩ ⟨10, second⟩ meter second kilogram = Except.ok s0
        ∧ s0.add_object "b" ⟨0, meter⟩ ⟨0, meter⟩ ⟨0, meter⟩ ⟨1, mps⟩ ⟨0, mps⟩ ⟨0, mps⟩
            ⟨1, kilogram⟩ ⟨1, meter⟩ = Except.ok s1
        ∧ s1.n_steps = 11 ∧ s1.maxtime.value = 10 ∧ s1.maxtime.unit = second
        ∧ s1.runE = Except.ok s1.run
        ∧ (∀ c, (trajRec s1.run 0 10).p c = (![10, 0, 0] : Vec3) c)
        ∧ (∀ c, (trajRec s1.run 0 10).v c = (![1, 0, 0] : Vec3) c)) := by
  refine ⟨fun G i b => rfl,
    fun s b h1 h2 => ⟨runE_eq_run s (by rw [h1]; simp),
      single_run_closed_form s b h1 h2⟩, ?_⟩
  have hdt : (⟨1, second⟩ : Quantity).to second = Except.ok ⟨1 * 1 / 1, second⟩ := rfl
  have hmt : (⟨10, second⟩ : Quantity).to second = Except.ok ⟨10 * 1 / 1, second⟩ := rfl
  have hG : G_SI.to (simGUnit meter kilogram second) = Except.ok gqW := rfl
  have hne : ¬ (⟨(1 : ℝ) * 1 / 1, second⟩ : Quantity).value = 0 := by norm_num
  have hmk := mkSimRun_ok ⟨1, second⟩ ⟨10, second⟩ meter second kilogram
    ⟨1 * 1 / 1, second⟩ ⟨10 * 1 / 1, second⟩ gqW hdt hmt hne hG
  have haddgen : ∀ s : SimRun, s.len_unit = meter → s.time_unit = second →
      s.mass_unit = kilogram → 0 < s.n_steps →
      s.add_object "b" ⟨0, meter⟩ ⟨0, meter⟩ ⟨0, meter⟩ ⟨1, mps⟩ ⟨0, mps⟩ ⟨0, mps⟩
          ⟨1, kilogram⟩ ⟨1, meter⟩
        = Except.ok { s with objects := s.objects ++
          [⟨"b", 1 * 1 / 1, 1 * 1 / 1,
            ⟨![0 * 1 / 1, 0 * 1 / 1, 0 * 1 / 1],
             ![1 * (1 / 1) / (1 / 1), 0 * (1 / 1) / (1 / 1), 0 * (1 / 1) / (1 / 1)], 0⟩ ::
              List.replicate (s.n_steps.toNat - 1) zeroPVT⟩] } := by
    intro s hl ht hm hn
    exact add_object_ok s "b" ⟨0, meter⟩ ⟨0, meter⟩ ⟨0, meter⟩ ⟨1, mps⟩ ⟨0, mps⟩ ⟨0, mps⟩
      ⟨1, kilogram⟩ ⟨1, meter⟩
      ⟨0 * 1 / 1, meter⟩ ⟨0 * 1 / 1, meter⟩ ⟨0 * 1 / 1, meter⟩
      ⟨1 * (1 / 1) / (1 / 1), meter.div second⟩ ⟨0 * (1 / 1) / (1 / 1), meter.div second⟩
      ⟨0 * (1 / 1) / (1 / 1), meter.div second⟩
      ⟨1 * 1 / 1, kilogram⟩ ⟨1 * 1 / 1, meter⟩
      (by rw [hl]; rfl) (by rw [hl]; rfl) (by rw [hl]; rfl)
      (by rw [hl, ht]; rfl) (by rw [hl, ht]; rfl) (by rw [hl, ht]; rfl)
      (by rw [hm]; rfl) (by rw [hl]; rfl) hn
  have hceil : (⌈(10 * 1 / 1 : ℝ) / (1 * 1 / 1)⌉ : ℤ) = 10 := by norm_num
  have hgen2 : ∀ (s1 : SimRun) (b1 : Body), s1.objects = [b1] → s1.n_steps = 11 →
      s1.dt = 1 →
      b1.pvt = (⟨![0 * 1 / 1, 0 * 1 / 1, 0 * 1 / 1],
        ![1 * (1 / 1) / (1 / 1), 0 * (1 / 1) / (1 / 1), 0 * (1 / 1) / (1 / 1)], 0⟩ : PVT) ::
          List.replicate 10 zeroPVT →
      (∀ c, (trajRec s1.run 0 10).p c = (![10, 0, 0] : Vec3) c)
      ∧ (∀ c, (trajRec s1.run 0 10).v c = (![1, 0, 0] : Vec3) c) := by
    intro s1 b1 hobj hns hdt1 hpvt
    have hton : s1.n_steps.toNat = 11 := by rw [hns]; rfl
    have hlen1 : b1.pvt.length = s1.n_steps.toNat := by
      rw [hpvt, hton]; simp
    have h10 : 10 < s1.n_steps.toNat := by rw [hton]; norm_num
    have hform := single_run_closed_form s1 b1 hobj hlen1 10 h10
    constructor
    · intro c
      rw [hform.1 c, hpvt, hdt1]
      fin_cases c <;>
        norm_num [List.getD_cons_zero, Matrix.cons_val_zero, Matrix.cons_val_one,
          Matrix.head_cons]
    · intro c
      rw [hform.2 c, hpvt]
      fin_cases c <;>
        norm_num [List.getD_cons_zero, Matrix.cons_val_zero, Matrix.cons_val_one,
          Matrix.head_cons]
  refine ⟨_, _, hmk, haddgen _ rfl rfl rfl (by norm_num [hceil]), ?_, ?_, rfl, ?_, ?_, ?_⟩
  · show (⌈(10 * 1 / 1 : ℝ) / (1 * 1 / 1)⌉ + 1 : ℤ) = 11
    rw [hceil]; norm_num
  · show (1 : ℝ) * ((⌈(10 * 1 / 1 : ℝ) / (1 * 1 / 1)⌉ + 1 - 1 : ℤ) : ℝ) = 10
    rw [hceil]
    norm_num
  · exact runE_eq_run _ (by simp)
  · exact (hgen2 _ _ rfl (by norm_num [hceil]) (by norm_num)
      (by norm_num [hceil]; rfl)).1
  · exact (hgen2 _ _ rfl (by norm_num [hceil]) (by norm_num)
      (by norm_num [hceil]; rfl)).2

theorem single_body_linear_witness :
    sW1.runE = Except.ok sW1.run
    ∧ ((∀ c, (trajRec sW1.run 0 2).p c
        = (bW3.pvt.getD 0 zeroPVT).p c + (bW3.pvt.getD 0 zeroPVT).v c * sW1.dt * (2 : ℕ))
    ∧ (∀ c, (trajRec sW1.run 0 2).v c = (bW3.pvt.getD 0 zeroPVT).v c)) :=
  ⟨(single_body_linear.2.1 sW1 bW3 rfl rfl).1,
   (single_body_linear.2.1 sW1 bW3 rfl rfl).2 2 (by decide)⟩

/-- C2 (amended): for dt > 0 and maxtime ≥ 0 (after conversion to the
simulation's time unit), the constructor derives n_steps = ceil(maxtime/dt)
+ 1, so n_steps ≥ 1, and n_steps ≥ 2 whenever maxtime > 0; the realized
maxtime stored in the exposed maxtime attribute is dt*(n_steps-1) in the
unit of the dt argument, an exact integer multiple of dt and at least the
requested maxtime. -/
theorem n_steps_derivation (dtq mtq : Quantity) (lu tu mu : PhUnit) (s : SimRun)
    (dtc mtc : Quantity)
    (hdt : dtq.to tu = Except.ok dtc) (hmt : mtq.to tu = Except.ok mtc)
    (hpos : 0 < dtc.value) (hnn : 0 ≤ mtc.value)
    (hmk : mkSimRun dtq mtq lu tu mu = Except.ok s) :
    s.n_steps = ⌈mtc.value / dtc.value⌉ + 1
    ∧ 1 ≤ s.n_steps
    ∧ (0 < mtc.value → 2 ≤ s.n_steps)
    ∧ s.maxtime = ⟨dtq.value * ((s.n_steps - 1 : ℤ) : ℝ), dtq.unit⟩
    ∧ mtc.value ≤ dtc.value * ((s.n_steps - 1 : ℤ) : ℝ)
    ∧ (∃ z : ℤ, s.maxtime.value = dtq.value * (z : ℝ)) := by
  have hne : ¬ dtc.value = 0 := by
    intro hh; rw [hh] at hpos; exact lt_irrefl 0 hpos
  cases hG : G_SI.to (simGUnit lu mu tu) with
  | error e =>
      simp only [mkSimRun, hdt, hmt, if_neg hne, hG] at hmk
      cases hmk
  | ok gq =>
    rw [mkSimRun_ok dtq mtq lu tu mu dtc mtc gq hdt hmt hne hG] at hmk
    cases hmk
    have hceilnn : 0 ≤ ⌈mtc.value / dtc.value⌉ :=
      Int.ceil_nonneg (div_nonneg hnn hpos.le)
    refine ⟨rfl, ?_, ?_, rfl, ?_, ⟨⌈mtc.value / dtc.value⌉ + 1 - 1, rfl⟩⟩
    · show (1 : ℤ) ≤ ⌈mtc.value / dtc.value⌉ + 1
      omega
    · intro hmp
      have h1 : 0 < ⌈mtc.value / dtc.value⌉ := Int.ceil_pos.mpr (div_pos hmp hpos)
      show (2 : ℤ) ≤ ⌈mtc.value / dtc.value⌉ + 1
      omega
    · have h1 : (⌈mtc.value / dtc.value⌉ + 1 - 1 : ℤ) = ⌈mtc.value / dtc.value⌉ := by omega
      show mtc.value ≤ dtc.value * ((⌈mtc.value / dtc.value⌉ + 1 - 1 : ℤ) : ℝ)
      rw [h1]
      have h2 : mtc.value / dtc.value ≤ (⌈mtc.value / dtc.value⌉ : ℝ) := Int.le_ceil _
      calc mtc.value = dtc.value * (mtc.value / dtc.value) := by field_simp
        _ ≤ dtc.value * (⌈mtc.value / dtc.value⌉ : ℝ) :=
            mul_le_mul_of_nonneg_left h2 hpos.le

theorem n_steps_derivation_witness :
    sC2.n_steps = ⌈mtcW.value / dtcW.value⌉ + 1
    ∧ 1 ≤ sC2.n_steps
    ∧ (0 < mtcW.value → 2 ≤ sC2.n_steps)
    ∧ sC2.maxtime = ⟨(2 : ℝ) * ((sC2.n_steps - 1 : ℤ) : ℝ), second⟩
    ∧ mtcW.value ≤ dtcW.value * ((sC2.n_steps - 1 : ℤ) : ℝ)
    ∧ (∃ z : ℤ, sC2.maxtime.value = (2 : ℝ) * (z : ℝ)) :=
  n_steps_derivation ⟨2, second⟩ ⟨5, second⟩ meter second kilogram sC2 dtcW mtcW
    rfl rfl (by norm_num [dtcW]) (by norm_num [mtcW])
    (mkSimRun_ok ⟨2, second⟩ ⟨5, second⟩ meter second kilogram dtcW mtcW gqW
      rfl rfl (by norm_num [dtcW]) rfl)

/-- C2 counterexample: dt = 1 s has dt > 0 and maxtime = 0 s has
maxtime ≥ 0, yet the constructor yields n_steps = ceil(0/1) + 1 = 1, which
is not ≥ 2. -/
theorem n_steps_two_cex :
    (mkSimRun ⟨1, second⟩ ⟨0, second⟩ meter second kilogram).map (fun s => s.n_steps)
      = Except.ok 1
    ∧ ¬ (2 : ℤ) ≤ 1 := by
  constructor
  · have hdt : (⟨1, second⟩ : Quantity).to second = Except.ok ⟨1 * 1 / 1, second⟩ := rfl
    have hmt : (⟨0, second⟩ : Quantity).to second = Except.ok ⟨0 * 1 / 1, second⟩ := rfl
    have hG : G_SI.to (simGUnit meter kilogram second) = Except.ok gqW := rfl
    rw [mkSimRun_ok ⟨1, second⟩ ⟨0, second⟩ meter second kilogram
      ⟨1 * 1 / 1, second⟩ ⟨0 * 1 / 1, second⟩ gqW hdt hmt (by norm_num) hG]
    simp only [Except.map]
    congr 1
    show (⌈(0 * 1 / 1 : ℝ) / (1 * 1 / 1)⌉ + 1 : ℤ) = 1
    norm_num
  · norm_num

/-- C8 (amended): a dt whose unit is not a time raises at construction, and
so does a dt converting to zero (the step-count ceil fails on the resulting
infinite or nan ratio); a position whose unit is not a length raises at
registration; a negative step count (from a negative dt) raises at
registration; but a negative dt itself is not rejected at construction. -/
theorem config_error_surfacing :
    (∀ (dtq mtq : Quantity) (lu tu mu : PhUnit), dtq.unit.dim ≠ tu.dim →
      mkSimRun dtq mtq lu tu mu = Except.error "UnitConversionError")
    ∧ (∀ (dtq mtq : Quantity) (lu tu mu : PhUnit) (dtc mtc : Quantity),
        dtq.to tu = Except.ok dtc → mtq.to tu = Except.ok mtc → dtc.value = 0 →
        mkSimRun dtq mtq lu tu mu = Except.error "OverflowError")
    ∧ (∀ (s : SimRun) (nm : String) (x0 y0 z0 vx0 vy0 vz0 m r : Quantity),
        ¬ s.n_steps < 0 → x0.unit.dim ≠ s.len_unit.dim →
        s.add_object nm x0 y0 z0 vx0 vy0 vz0 m r = Except.error "UnitConversionError")
    ∧ (∀ (s : SimRun) (nm : String) (x0 y0 z0 vx0 vy0 vz0 m r : Quantity),
        s.n_steps < 0 →
        s.add_object nm x0 y0 z0 vx0 vy0 vz0 m r = Except.error "ValueError") :=
  ⟨fun dtq mtq lu tu mu h => mkSimRun_err_dtUnit dtq mtq lu tu mu h,
   fun dtq mtq lu tu mu dtc mtc hdt hmt hz =>
     mkSimRun_err_zero dtq mtq lu tu mu dtc mtc hdt hmt hz,
   fun s nm x0 y0 z0 vx0 vy0 vz0 m r hn hd =>
     add_object_err_unit s nm x0 y0 z0 vx0 vy0 vz0 m r hn hd,
   fun s nm x0 y0 z0 vx0 vy0 vz0 m r hn =>
     add_object_err_neg s nm x0 y0 z0 vx0 vy0 vz0 m r hn⟩

theorem config_error_surfacing_witness :
    mkSimRun ⟨1, kilogram⟩ ⟨1, second⟩ meter second kilogram
      = Except.error "UnitConversionError"
    ∧ mkSimRun ⟨0, second⟩ ⟨1, second⟩ meter second kilogram
      = Except.error "OverflowError"
    ∧ sW.add_object "e" ⟨1, kilogram⟩ ⟨0, meter⟩ ⟨0, meter⟩ ⟨0, mps⟩ ⟨0, mps⟩ ⟨0, mps⟩
        ⟨1, kilogram⟩ ⟨1, meter⟩ = Except.error "UnitConversionError"
    ∧ sNeg.add_object "e" ⟨0, meter⟩ ⟨0, meter⟩ ⟨0, meter⟩ ⟨0, mps⟩ ⟨0, mps⟩ ⟨0, mps⟩
        ⟨1, kilogram⟩ ⟨1, meter⟩ = Except.error "ValueError" :=
  ⟨config_error_surfacing.1 ⟨1, kilogram⟩ ⟨1, second⟩ meter second kilogram (by decide),
   config_error_surfacing.2.1 ⟨0, second⟩ ⟨1, second⟩ meter second kilogram
     ⟨0 * 1 / 1, second⟩ ⟨1 * 1 / 1, second⟩ rfl rfl (by norm_num),
   config_error_surfacing.2.2.1 sW "e" ⟨1, kilogram⟩ ⟨0, meter⟩ ⟨0, meter⟩ ⟨0, mps⟩
     ⟨0, mps⟩ ⟨0, mps⟩ ⟨1, kilogram⟩ ⟨1, meter⟩ (by decide) (by decide),
   config_error_surfacing.2.2.2 sNeg "e" ⟨0, meter⟩ ⟨0, meter⟩ ⟨0, meter⟩ ⟨0, mps⟩
     ⟨0, mps⟩ ⟨0, mps⟩ ⟨1, kilogram⟩ ⟨1, meter⟩ (by decide)⟩

/-- C8 counterexample: dt = -1 s is non-positive, yet with maxtime = 0 s
construction succeeds (n_steps = 1), registration succeeds, and run has no
step to perform, so the configuration error is never surfaced. -/
theorem config_error_cex :
    (mkSimRun ⟨-1, second⟩ ⟨0, second⟩ meter second kilogram).map (fun s => s.n_steps)
      = Except.ok 1
    ∧ ((mkSimRun ⟨-1, second⟩ ⟨0, second⟩ meter second kilogram).bind
        (fun s => s.add_object "b" ⟨0, meter⟩ ⟨0, meter⟩ ⟨0, meter⟩ ⟨0, mps⟩ ⟨0, mps⟩
          ⟨0, mps⟩ ⟨1, kilogram⟩ ⟨1, meter⟩)).isOk = true := by
  have hdt : (⟨-1, second⟩ : Quantity).to second = Except.ok ⟨-1 * 1 / 1, second⟩ := rfl
  have hmt : (⟨0, second⟩ : Quantity).to second = Except.ok ⟨0 * 1 / 1, second⟩ := rfl
  have hG : G_SI.to (simGUnit meter kilogram second) = Except.ok gqW := rfl
  have hmk := mkSimRun_ok ⟨-1, second⟩ ⟨0, second⟩ meter second kilogram
    ⟨-1 * 1 / 1, second⟩ ⟨0 * 1 / 1, second⟩ gqW hdt hmt (by norm_num) hG
  have hceil0 : (⌈(0 * 1 / 1 : ℝ) / (-1 * 1 / 1)⌉ : ℤ) = 0 := by norm_num
  have haddgen0 : ∀ s3 : SimRun, s3.len_unit = meter → s3.time_unit = second →
      s3.mass_unit = kilogram → 0 < s3.n_steps →
      (s3.add_object "b" ⟨0, meter⟩ ⟨0, meter⟩ ⟨0, meter⟩ ⟨0, mps⟩ ⟨0, mps⟩ ⟨0, mps⟩
        ⟨1, kilogram⟩ ⟨1, meter⟩).isOk = true := by
    intro s3 hl ht hm hn
    rw [add_object_ok s3 "b" ⟨0, meter⟩ ⟨0, meter⟩ ⟨0, meter⟩ ⟨0, mps⟩ ⟨0, mps⟩ ⟨0, mps⟩
      ⟨1, kilogram⟩ ⟨1, meter⟩
      ⟨0 * 1 / 1, meter⟩ ⟨0 * 1 / 1, meter⟩ ⟨0 * 1 / 1, meter⟩
      ⟨0 * (1 / 1) / (1 / 1), meter.div second⟩ ⟨0 * (1 / 1) / (1 / 1), meter.div second⟩
      ⟨0 * (1 / 1) / (1 / 1), meter.div second⟩
      ⟨1 * 1 / 1, kilogram⟩ ⟨1 * 1 / 1, meter⟩
      (by rw [hl]; rfl) (by rw [hl]; rfl) (by rw [hl]; rfl)
      (by rw [hl, ht]; rfl) (by rw [hl, ht]; rfl) (by rw [hl, ht]; rfl)
      (by rw [hm]; rfl) (by rw [hl]; rfl) hn]
    rfl
  constructor
  · rw [hmk]
    simp only [Except.map]
    congr 1
    show (⌈(0 * 1 / 1 : ℝ) / (-1 * 1 / 1)⌉ + 1 : ℤ) = 1
    rw [hceil0]
    norm_num
  · rw [hmk]
    simp only [Except.bind]
    exact haddgen0 _ rfl rfl rfl
      (by show (0 : ℤ) < ⌈(0 * 1 / 1 : ℝ) / (-1 * 1 / 1)⌉ + 1; rw [hceil0]; norm_num)

/-- The zero-filled placeholder reads back from any entry of a zero
array. -/
theorem getD_replicate (n j : ℕ) (a : PVT) : (List.replicate n a).getD j a = a := by
  rcases Nat.lt_or_ge j n with hj | hj
  · rw [List.getD_eq_getElem _ _ (by simpa using hj)]
    exact List.getElem_replicate a _
  · exact List.getD_eq_default _ _ (by simpa using hj)

/-- C9: after a successful add_object and before run, the new body's
trajectory has exactly n_steps records; entry 0 holds exactly the supplied
initial position and velocity converted to the simulation's units with
time 0, and every entry from 1 up holds the zero-filled placeholder, which
is returned on read rather than an error being raised. -/
theorem add_object_trajectory (s : SimRun) (nm : String)
    (x0 y0 z0 vx0 vy0 vz0 m r : Quantity) (s2 : SimRun)
    (h : s.add_object nm x0 y0 z0 vx0 vy0 vz0 m r = Except.ok s2) :
    ∃ (b : Body) (xc yc zc vxc vyc vzc : Quantity),
      x0.to s.len_unit = Except.ok xc ∧
      y0.to s.len_unit = Except.ok yc ∧
      z0.to s.len_unit = Except.ok zc ∧
      vx0.to (s.len_unit.div s.time_unit) = Except.ok vxc ∧
      vy0.to (s.len_unit.div s.time_unit) = Except.ok vyc ∧
      vz0.to (s.len_unit.div s.time_unit) = Except.ok vzc ∧
      s2.objects = s.objects ++ [b] ∧
      b.pvt.length = s.n_steps.toNat ∧
      b.pvt.getD 0 zeroPVT
        = ⟨![xc.value, yc.value, zc.value], ![vxc.value, vyc.value, vzc.value], 0⟩ ∧
      (∀ i, 1 ≤ i → i < s.n_steps.toNat → b.pvt.getD i zeroPVT = zeroPVT) := by
  obtain ⟨hn, xc, yc, zc, vxc, vyc, vzc, mc, rc, hx, hy, hz, hvx, hvy, hvz, hm, hr, rfl⟩ :=
    add_object_inv s nm x0 y0 z0 vx0 vy0 vz0 m r s2 h
  refine ⟨_, xc, yc, zc, vxc, vyc, vzc, hx, hy, hz, hvx, hvy, hvz, rfl, ?_, ?_, ?_⟩
  · show ((⟨![xc.value, yc.value, zc.value], ![vxc.value, vyc.value, vzc.value], 0⟩ : PVT) ::
        List.replicate (s.n_steps.toNat - 1) zeroPVT).length = s.n_steps.toNat
    simp only [List.length_cons, List.length_replicate]
    omega
  · rfl
  · intro i h1 h2
    obtain ⟨j, rfl⟩ : ∃ j, i = j + 1 := ⟨i - 1, by omega⟩
    show ((⟨![xc.value, yc.value, zc.value], ![vxc.value, vyc.value, vzc.value], 0⟩ : PVT) ::
        List.replicate (s.n_steps.toNat - 1) zeroPVT).getD (j + 1) zeroPVT = zeroPVT
    rw [List.getD_cons_succ]
    exact getD_replicate _ _ _

theorem add_object_trajectory_witness :
    ∃ (b : Body) (xc yc zc vxc vyc vzc : Quantity),
      (⟨0, meter⟩ : Quantity).to sW.len_unit = Except.ok xc ∧
      (⟨0, meter⟩ : Quantity).to sW.len_unit = Except.ok yc ∧
      (⟨0, meter⟩ : Quantity).to sW.len_unit = Except.ok zc ∧
      (⟨0, mps⟩ : Quantity).to (sW.len_unit.div sW.time_unit) = Except.ok vxc ∧
      (⟨0, mps⟩ : Quantity).to (sW.len_unit.div sW.time_unit) = Except.ok vyc ∧
      (⟨0, mps⟩ : Quantity).to (sW.len_unit.div sW.time_unit) = Except.ok vzc ∧
      s2W.objects = sW.objects ++ [b] ∧
      b.pvt.length = sW.n_steps.toNat ∧
      b.pvt.getD 0 zeroPVT
        = ⟨![xc.value, yc.value, zc.value], ![vxc.value, vyc.value, vzc.value], 0⟩ ∧
      (∀ i, 1 ≤ i → i < sW.n_steps.toNat → b.pvt.getD i zeroPVT = zeroPVT) :=
  add_object_trajectory sW "w" ⟨0, meter⟩ ⟨0, meter⟩ ⟨0, meter⟩ ⟨0, mps⟩ ⟨0, mps⟩
    ⟨0, mps⟩ ⟨1, kilogram⟩ ⟨1, meter⟩ s2W
    (add_object_ok sW "w" ⟨0, meter⟩ ⟨0, meter⟩ ⟨0, meter⟩ ⟨0, mps⟩ ⟨0, mps⟩ ⟨0, mps⟩
      ⟨1, kilogram⟩ ⟨1, meter⟩
      ⟨0 * 1 / 1, meter⟩ ⟨0 * 1 / 1, meter⟩ ⟨0 * 1 / 1, meter⟩
      ⟨0 * (1 / 1) / (1 / 1), meter.div second⟩ ⟨0 * (1 / 1) / (1 / 1), meter.div second⟩
      ⟨0 * (1 / 1) / (1 / 1), meter.div second⟩
      ⟨1 * 1 / 1, kilogram⟩ ⟨1 * 1 / 1, meter⟩
      rfl rfl rfl rfl rfl rfl rfl rfl (by decide))

end Orbits
